import Mathlib

/-!
Shallow embedding of `src/qconversion.c` (xrayutilities): conversion of
angular goniometer coordinates to reciprocal-space momentum-transfer
vectors, for point, linear and area detectors.

Doubles are modelled as real numbers, C output buffers as functions
`ℤ → ℝ` updated by explicit writes, and the fallible setup helpers as
`Except`-valued functions carrying the C return code.

The linear-algebra primitives (`vecmat3.h`) and the six rotation-matrix
generators (`rot_matrix.h`) are declared but not defined in the sources
at hand; they are modelled from the spec, which assumes them as a
correct linear-algebra layer and describes the generators as the
standard principal-axis rotation matrices.
-/

namespace Qconv

/-- Vectors of three doubles. -/
abbrev V3 := Fin 3 → ℝ

/-- Row-major 3x3 matrices of doubles. -/
abbrev Mat3 := Matrix (Fin 3) (Fin 3) ℝ

/-- Modelled from the spec: the constant `M_2PI` (2·π) from the missing header. -/
noncomputable def M_2PI : ℝ := 2 * Real.pi

/-- Modelled from the spec: `ident(m)` of vecmat3.h, the 3x3 identity matrix. -/
noncomputable def ident : Mat3 := 1

/-- Modelled from the spec: `matmul(a,b)` of vecmat3.h, in place `a := a * b`. -/
noncomputable def matmul (a b : Mat3) : Mat3 := a * b

/-- Modelled from the spec: `inversemat(m,out)` of vecmat3.h, the 3x3 matrix inverse. -/
noncomputable def inversemat (m : Mat3) : Mat3 := m⁻¹

/-- Modelled from the spec: `diffmat(a,b)` of vecmat3.h, in place `a := a - b`. -/
noncomputable def diffmat (a b : Mat3) : Mat3 := a - b

/-- Modelled from the spec: `matvec(m,v,out)` of vecmat3.h, `out := m · v`. -/
noncomputable def matvec (m : Mat3) (v : V3) : V3 := m.mulVec v

/-- Modelled from the spec: the Euclidean norm of a 3-vector (vecmat3.h). -/
noncomputable def vecnorm (v : V3) : ℝ := Real.sqrt (v 0 ^ 2 + v 1 ^ 2 + v 2 ^ 2)

/-- Modelled from the spec: `normalize(v)` of vecmat3.h, in place `v := v / |v|`. -/
noncomputable def normalize (v : V3) : V3 := fun k => v k / vecnorm v

/-- Modelled from the spec: `vecmul(v,a)` of vecmat3.h, in place `v := v * a`. -/
noncomputable def vecmul (v : V3) (a : ℝ) : V3 := fun k => v k * a

/-- Modelled from the spec: `sumvec(a,b)` of vecmat3.h, in place `a := a + b`. -/
noncomputable def sumvec (a b : V3) : V3 := fun k => a k + b k

/-- Modelled from the spec: `diffvec(a,b)` of vecmat3.h, in place `a := a - b`. -/
noncomputable def diffvec (a b : V3) : V3 := fun k => a k - b k

/-- The six rotation-matrix generators of rot_matrix.h, as a closed variant type
(the C code stores them as function pointers `fp_rot`). -/
inductive Rot | xp | xm | yp | ym | zp | zm deriving DecidableEq

/-- Modelled from the spec: each generator maps an angle to the standard
right-hand rotation matrix about its principal axis, with the sense of
rotation negated for the minus variants. -/
noncomputable def Rot.mat : Rot → ℝ → Mat3
  | .xp, a => !![1, 0, 0; 0, Real.cos a, -(Real.sin a); 0, Real.sin a, Real.cos a]
  | .xm, a => !![1, 0, 0; 0, Real.cos a, Real.sin a; 0, -(Real.sin a), Real.cos a]
  | .yp, a => !![Real.cos a, 0, Real.sin a; 0, 1, 0; -(Real.sin a), 0, Real.cos a]
  | .ym, a => !![Real.cos a, 0, -(Real.sin a); 0, 1, 0; Real.sin a, 0, Real.cos a]
  | .zp, a => !![Real.cos a, -(Real.sin a), 0; Real.sin a, Real.cos a, 0; 0, 0, 1]
  | .zm, a => !![Real.cos a, Real.sin a, 0; -(Real.sin a), Real.cos a, 0; 0, 0, 1]

/-- One pair of the axis-spec string: the switch body of
`determine_axes_directions` (letter case-folded, then the sign character);
error code 1 for a bad sign, 2 for a bad letter, as in the C returns. -/
def parse_axis (c1 c2 : Char) : Except ℕ Rot :=
  if c1.toLower = 'x' then
    if c2 = '+' then .ok .xp else if c2 = '-' then .ok .xm else .error 1
  else if c1.toLower = 'y' then
    if c2 = '+' then .ok .yp else if c2 = '-' then .ok .ym else .error 1
  else if c1.toLower = 'z' then
    if c2 = '+' then .ok .zp else if c2 = '-' then .ok .zm else .error 1
  else .error 2

/-- The `i` loop of `determine_axes_directions`, over the list of circle
indices: each index reads characters `2i` and `2i+1` of the axis string and
the first malformed pair aborts with its error code. -/
def resolve_axes (s : List Char) : List ℕ → Except ℕ (List Rot)
  | [] => .ok []
  | i :: t =>
    match parse_axis (s.getD (2 * i) ' ') (s.getD (2 * i + 1) ' ') with
    | .error e => .error e
    | .ok r =>
      match resolve_axes s t with
      | .error e => .error e
      | .ok rs => .ok (r :: rs)

/-- `determine_axes_directions(fp_circles, stringAxis, n)` of qconversion.c:
resolve `n` axis pairs of the spec string into rotation generators. -/
def determine_axes_directions (s : List Char) (n : ℕ) : Except ℕ (List Rot) :=
  resolve_axes s (List.range n)

/-- `determine_detector_pixel(rpixel, dir, dpixel)` of qconversion.c: the
pixel-step vector along the axis named by `dir[0]` (case-folded) with sign
`dir[1]` and magnitude `dpixel`; error code 1 for a bad sign, 2 for a bad
axis letter, as in the C returns. -/
noncomputable def determine_detector_pixel (dir0 dir1 : Char) (dpixel : ℝ) :
    Except ℕ V3 :=
  if dir0.toLower = 'x' then
    if dir1 = '+' then .ok ![dpixel, 0, 0]
    else if dir1 = '-' then .ok ![-dpixel, 0, 0]
    else .error 1
  else if dir0.toLower = 'y' then
    if dir1 = '+' then .ok ![0, dpixel, 0]
    else if dir1 = '-' then .ok ![0, -dpixel, 0]
    else .error 1
  else if dir0.toLower = 'z' then
    if dir1 = '+' then .ok ![0, 0, dpixel]
    else if dir1 = '-' then .ok ![0, 0, -dpixel]
    else .error 1
  else .error 2

/-- The per-position circle loop shared by all three entry points: starting
from `ident`, right-multiply circle `j`'s rotation matrix generated at angle
`ang[n*i+j]`, for `j = 0..n-1` in ascending order. -/
noncomputable def circles_mat (rots : List Rot) (ang : ℕ → ℝ) (n i : ℕ) : Mat3 :=
  (List.range n).foldl (fun m j => matmul m ((rots.getD j .xp).mat (ang (n * i + j)))) ident

/-- One `matvec(..., &qpos[base])` store: write the three components of `v`
to cells `base`, `base+1`, `base+2` of the flat output buffer. -/
def write3 (q : ℤ → ℝ) (base : ℤ) (v : V3) : ℤ → ℝ := fun z =>
  if z = base then v 0
  else if z = base + 1 then v 1
  else if z = base + 2 then v 2
  else q z

/-- The body of the position loop of `ang2q_conversion`: `ms` is the inverse
of the composed sample rotations, `md` the composed detector rotations minus
the identity, and the stored vector is `(ms * md) · ri`. -/
noncomputable def point_val (sRot dRot : List Rot) (sAng dAng : ℕ → ℝ)
    (Ns Nd : ℕ) (ri2 : V3) (i : ℕ) : V3 :=
  matvec (matmul (inversemat (circles_mat sRot sAng Ns i))
    (diffmat (circles_mat dRot dAng Nd i) ident)) ri2

/-- `ang2q_conversion` of qconversion.c (point detector). The result is the
status code together with the `qpos` and `ri` buffers after the call:
`ri` is renormalized and scaled to 2π/λ in place before the position loop. -/
noncomputable def ang2q_conversion (sAng dAng : ℕ → ℝ) (qpos : ℤ → ℝ) (ri : V3)
    (Ns Nd Npoints : ℕ) (sampleAxis detectorAxis : List Char) (lambda : ℝ) :
    ℕ × (ℤ → ℝ) × V3 :=
  match determine_axes_directions sampleAxis Ns with
  | .error _ => (1, qpos, ri)
  | .ok sampleRotation =>
  match determine_axes_directions detectorAxis Nd with
  | .error _ => (1, qpos, ri)
  | .ok detectorRotation =>
  let ri2 := vecmul (normalize ri) (M_2PI / lambda)
  (0,
   (List.range Npoints).foldl
     (fun q (i : ℕ) =>
       write3 q (3 * (i : ℤ)) (point_val sampleRotation detectorRotation sAng dAng Ns Nd ri2 i))
     qpos,
   ri2)

/-- The half-open integer pixel range `[lo, hi)` of a detector ROI. -/
def intRange (lo hi : ℤ) : List ℤ :=
  (List.range (hi - lo).toNat).map (fun (t : ℕ) => lo + (t : ℤ))

/-- The body of the channel loop of `ang2q_conversion_linear`: the pixel
direction `rd = normalize(j*rpixel - rcchp + rcch)` is rotated by `md`, the
unit primary-beam direction `r_i` subtracted, the result scaled by `f` and
rotated by `ms`. -/
noncomputable def linear_val (ms md : Mat3) (rpixel rcchp rcch r_i : V3)
    (f : ℝ) (j : ℤ) : V3 :=
  matvec ms (vecmul (diffvec (matvec md
    (normalize (sumvec (fun k => (j : ℝ) * rpixel k - rcchp k) rcch))) r_i) f)

/-- `ang2q_conversion_linear` of qconversion.c (linear detector). The result
is the status code together with the `qpos` and `rcch` buffers after the
call (`rcch` is only read; the unit beam direction is a copy `r_i`). -/
noncomputable def ang2q_conversion_linear (sAng dAng : ℕ → ℝ) (qpos : ℤ → ℝ)
    (rcch : V3) (Ns Nd Npoints : ℕ) (sampleAxis detectorAxis : List Char)
    (cch dpixel : ℝ) (roi0 roi1 : ℤ) (dir0 dir1 : Char) (lambda : ℝ) :
    ℕ × (ℤ → ℝ) × V3 :=
  let f := M_2PI / lambda
  let Nch := roi1 - roi0
  match determine_axes_directions sampleAxis Ns with
  | .error _ => (1, qpos, rcch)
  | .ok sampleRotation =>
  match determine_axes_directions detectorAxis Nd with
  | .error _ => (1, qpos, rcch)
  | .ok detectorRotation =>
  match determine_detector_pixel dir0 dir1 dpixel with
  | .error _ => (1, qpos, rcch)
  | .ok rpixel =>
  let rcchp : V3 := fun k => rpixel k * cch
  let r_i := normalize rcch
  (0,
   (List.range Npoints).foldl
     (fun q (i : ℕ) =>
       (intRange roi0 roi1).foldl
         (fun q j =>
           write3 q (3 * ((i : ℤ) * Nch + j - roi0))
             (linear_val (inversemat (circles_mat sampleRotation sAng Ns i))
               (circles_mat detectorRotation dAng Nd i) rpixel rcchp rcch r_i f j))
         q)
     qpos,
   rcch)

/-- The body of the pixel loops of `ang2q_conversion_area`: as in the linear
case but the pixel offset combines both detector axes,
`rd = normalize(j1*rpixel1 + j2*rpixel2 - rcchp + rcch)`. -/
noncomputable def area_val (ms md : Mat3) (rpixel1 rpixel2 rcchp rcch r_i : V3)
    (f : ℝ) (j1 j2 : ℤ) : V3 :=
  matvec ms (vecmul (diffvec (matvec md
    (normalize (sumvec (fun k => (j1 : ℝ) * rpixel1 k + (j2 : ℝ) * rpixel2 k - rcchp k) rcch)))
    r_i) f)

/-- `ang2q_conversion_area` of qconversion.c (area detector). The result is
the status code together with the `qpos` and `rcch` buffers after the call. -/
noncomputable def ang2q_conversion_area (sAng dAng : ℕ → ℝ) (qpos : ℤ → ℝ)
    (rcch : V3) (Ns Nd Npoints : ℕ) (sampleAxis detectorAxis : List Char)
    (cch1 cch2 dpixel1 dpixel2 : ℝ) (roi0 roi1 roi2 roi3 : ℤ)
    (dir10 dir11 dir20 dir21 : Char) (lambda : ℝ) :
    ℕ × (ℤ → ℝ) × V3 :=
  let f := M_2PI / lambda
  match determine_axes_directions sampleAxis Ns with
  | .error _ => (1, qpos, rcch)
  | .ok sampleRotation =>
  match determine_axes_directions detectorAxis Nd with
  | .error _ => (1, qpos, rcch)
  | .ok detectorRotation =>
  match determine_detector_pixel dir10 dir11 dpixel1 with
  | .error _ => (1, qpos, rcch)
  | .ok rpixel1 =>
  match determine_detector_pixel dir20 dir21 dpixel2 with
  | .error _ => (1, qpos, rcch)
  | .ok rpixel2 =>
  let rcchp : V3 := fun k => rpixel1 k * cch1 + rpixel2 k * cch2
  let r_i := normalize rcch
  let idxh1 := (roi1 - roi0) * (roi3 - roi2)
  let idxh2 := roi1 - roi0
  (0,
   (List.range Npoints).foldl
     (fun q (i : ℕ) =>
       (intRange roi0 roi1).foldl
         (fun q j1 =>
           (intRange roi2 roi3).foldl
             (fun q j2 =>
               write3 q (3 * ((i : ℤ) * idxh1 + idxh2 * (j2 - roi2) + (j1 - roi0)))
                 (area_val (inversemat (circles_mat sampleRotation sAng Ns i))
                   (circles_mat detectorRotation dAng Nd i) rpixel1 rpixel2 rcchp rcch r_i f j1 j2))
             q)
         q)
     qpos,
   rcch)

/-- The list of (position, pixel) pairs visited by a nested loop. -/
def pairList {ι κ : Type} (l : List ι) (g : ι → List κ) : List (ι × κ) :=
  l.foldr (fun i acc => ((g i).map (fun j => (i, j))) ++ acc) []

/-- Following the claim's words (C1): the point-detector Q for position `i` is
`R_s⁻¹ (R_d − I) k_i`, with `R_s` and `R_d` the products of the per-circle
rotation matrices in ascending circle order (circle 0 first) and `k_i` the
beam direction normalized to unit length and scaled by 2π/λ. -/
noncomputable def spec_pointQ (sRot dRot : List Rot) (sAng dAng : ℕ → ℝ)
    (Ns Nd : ℕ) (ri : V3) (lambda : ℝ) (i : ℕ) : V3 :=
  let Rs := ((List.range Ns).map (fun j => (sRot.getD j .xp).mat (sAng (Ns * i + j)))).prod
  let Rd := ((List.range Nd).map (fun j => (dRot.getD j .xp).mat (dAng (Nd * i + j)))).prod
  (Rs⁻¹ * (Rd - 1)).mulVec (vecmul (normalize ri) (M_2PI / lambda))

/-- Following the claim's words (C3): the linear-detector Q for position `i`
and pixel `p` is `R_s⁻¹ ((R_d d_p − r_i) · 2π/λ)` with
`d_p = normalize(p·pixel_step − cch·pixel_step + rcch)` and `r_i` the unit
vector along `rcch`. -/
noncomputable def spec_linearQ (sRot dRot : List Rot) (sAng dAng : ℕ → ℝ)
    (Ns Nd : ℕ) (rpixel rcch : V3) (cch lambda : ℝ) (i : ℕ) (p : ℤ) : V3 :=
  let Rs := ((List.range Ns).map (fun j => (sRot.getD j .xp).mat (sAng (Ns * i + j)))).prod
  let Rd := ((List.range Nd).map (fun j => (dRot.getD j .xp).mat (dAng (Nd * i + j)))).prod
  let dp := normalize (fun k => (p : ℝ) * rpixel k - cch * rpixel k + rcch k)
  Rs⁻¹.mulVec (vecmul (diffvec (Rd.mulVec dp) (normalize rcch)) (M_2PI / lambda))

/-- Following the claim's words (C4): the flat output slot of position `i`
and pixel pair `(p1, p2)`, `i·N1·N2 + (p2 − roi2)·N1 + (p1 − roi0)` with
`N1 = roi1 − roi0` and `N2 = roi3 − roi2`. -/
def claim_area_index (roi0 roi1 roi2 roi3 : ℤ) (i : ℕ) (p1 p2 : ℤ) : ℤ :=
  (i : ℤ) * ((roi1 - roi0) * (roi3 - roi2)) + (p2 - roi2) * (roi1 - roi0) + (p1 - roi0)

/-- Following the claim's words (C7): the component index named by a
direction letter (x ↦ 0, y ↦ 1, z ↦ 2, case-insensitive). -/
def axisIndex (c : Char) : Fin 3 :=
  if c.toLower = 'x' then 0 else if c.toLower = 'y' then 1 else 2

/-- A well-formed axis pair in the sense of the claims: letter in x,y,z
(case-insensitive), sign '+' or '-'. -/
def validAxisPair (c1 c2 : Char) : Prop :=
  (c1.toLower = 'x' ∨ c1.toLower = 'y' ∨ c1.toLower = 'z') ∧ (c2 = '+' ∨ c2 = '-')

instance (c1 c2 : Char) : Decidable (validAxisPair c1 c2) := by
  unfold validAxisPair
  infer_instance

/-! Machinery: reading back the values stored by folds of `write3`. -/

theorem write3_read0 (q : ℤ → ℝ) (base : ℤ) (v : V3) : write3 q base v base = v 0 := by
  simp [write3]

theorem write3_read1 (q : ℤ → ℝ) (base : ℤ) (v : V3) : write3 q base v (base + 1) = v 1 := by
  have h : ¬(base + 1 = base) := by omega
  simp [write3, h]

theorem write3_read2 (q : ℤ → ℝ) (base : ℤ) (v : V3) : write3 q base v (base + 2) = v 2 := by
  have h : ¬(base + 2 = base) := by omega
  have h' : ¬(base + 2 = base + 1) := by omega
  simp [write3, h, h']

theorem write3_miss (q : ℤ → ℝ) (base : ℤ) (v : V3) (z : ℤ)
    (h0 : z ≠ base) (h1 : z ≠ base + 1) (h2 : z ≠ base + 2) :
    write3 q base v z = q z := by
  simp [write3, h0, h1, h2]

/-- A fold of `write3` stores leave every cell outside all written slots unchanged. -/
theorem foldl_write3_miss {ι : Type} (B : ι → ℤ) (V : ι → V3) (z : ℤ) (l : List ι)
    (h : ∀ y ∈ l, z ≠ B y ∧ z ≠ B y + 1 ∧ z ≠ B y + 2) :
    ∀ q : ℤ → ℝ, l.foldl (fun q y => write3 q (B y) (V y)) q z = q z := by
  induction l with
  | nil => intro q; rfl
  | cons a t ih =>
    intro q
    have ha := h a (List.mem_cons_self a t)
    simp only [List.foldl_cons]
    rw [ih (fun y hy => h y (List.mem_cons_of_mem a hy)) (write3 q (B a) (V a)),
      write3_miss q (B a) (V a) z ha.1 ha.2.1 ha.2.2]

/-- A fold of `write3` stores puts, at any slot whose base is at distance at
least 3 from every other written base, exactly the vector of that slot. -/
theorem foldl_write3_read {ι : Type} (B : ι → ℤ) (V : ι → V3) (l : List ι) :
    ∀ x : ι, x ∈ l → (∀ y ∈ l, |B y - B x| < 3 → B y = B x ∧ V y = V x) →
    ∀ q : ℤ → ℝ,
      l.foldl (fun q y => write3 q (B y) (V y)) q (B x) = V x 0 ∧
      l.foldl (fun q y => write3 q (B y) (V y)) q (B x + 1) = V x 1 ∧
      l.foldl (fun q y => write3 q (B y) (V y)) q (B x + 2) = V x 2 := by
  induction l with
  | nil => intro x hx; exact absurd hx (List.not_mem_nil x)
  | cons a t ih =>
    intro x hx h q
    simp only [List.foldl_cons]
    by_cases hxt : x ∈ t
    · exact ih x hxt (fun y hy => h y (List.mem_cons_of_mem a hy)) (write3 q (B a) (V a))
    · have hax : x = a := by
        rcases List.mem_cons.mp hx with h1 | h1
        · exact h1
        · exact absurd h1 hxt
      subst hax
      by_cases htouch : ∃ y ∈ t, |B y - B x| < 3
      · obtain ⟨y, hyt, hnear⟩ := htouch
        obtain ⟨hBy, hVy⟩ := h y (List.mem_cons_of_mem x hyt) hnear
        have hcond : ∀ z ∈ t, |B z - B y| < 3 → B z = B y ∧ V z = V y := by
          intro z hz hzn
          rw [hBy] at hzn
          obtain ⟨h1, h2⟩ := h z (List.mem_cons_of_mem x hz) hzn
          exact ⟨h1.trans hBy.symm, h2.trans hVy.symm⟩
        have hread := ih y hyt hcond (write3 q (B x) (V x))
        rw [hBy, hVy] at hread
        exact hread
      · push_neg at htouch
        have hfar : ∀ y ∈ t, 3 ≤ |B y - B x| := htouch
        have hmiss : ∀ off : ℤ, off = 0 ∨ off = 1 ∨ off = 2 →
            ∀ y ∈ t, B x + off ≠ B y ∧ B x + off ≠ B y + 1 ∧ B x + off ≠ B y + 2 := by
          intro off hoff y hy
          have h3 := hfar y hy
          rcases le_abs.mp h3 with hc | hc <;> omega
        refine ⟨?_, ?_, ?_⟩
        · have hz := foldl_write3_miss B V (B x) t
            (by
              have := hmiss 0 (Or.inl rfl)
              intro y hy
              have h' := this y hy
              omega)
            (write3 q (B x) (V x))
          rw [hz, write3_read0]
        · have hz := foldl_write3_miss B V (B x + 1) t (hmiss 1 (Or.inr (Or.inl rfl)))
            (write3 q (B x) (V x))
          rw [hz, write3_read1]
        · have hz := foldl_write3_miss B V (B x + 2) t (hmiss 2 (Or.inr (Or.inr rfl)))
            (write3 q (B x) (V x))
          rw [hz, write3_read2]

theorem pairList_cons {ι κ : Type} (a : ι) (t : List ι) (g : ι → List κ) :
    pairList (a :: t) g = ((g a).map (fun j => (a, j))) ++ pairList t g := rfl

theorem mem_pairList {ι κ : Type} (l : List ι) (g : ι → List κ) (p : ι × κ) :
    p ∈ pairList l g ↔ p.1 ∈ l ∧ p.2 ∈ g p.1 := by
  induction l with
  | nil => simp [pairList]
  | cons a t ih =>
    obtain ⟨p1, p2⟩ := p
    simp only [pairList_cons, List.mem_append, List.mem_map, List.mem_cons] at *
    constructor
    · rintro (⟨j, hj, hc⟩ | hm)
      · obtain ⟨h1, h2⟩ := Prod.mk.injEq .. ▸ hc
        cases hc
        exact ⟨Or.inl rfl, hj⟩
      · have := ih.mp hm
        exact ⟨Or.inr this.1, this.2⟩
    · rintro ⟨h1 | h1, h2⟩
      · subst h1
        exact Or.inl ⟨p2, h2, rfl⟩
      · exact Or.inr (ih.mpr ⟨h1, h2⟩)

/-- A nested loop of `write3` stores flattens to a single fold over the pair list. -/
theorem foldl_foldl_write3 {ι κ : Type} (B : ι → κ → ℤ) (V : ι → κ → V3)
    (l : List ι) (g : ι → List κ) :
    ∀ q : ℤ → ℝ,
      l.foldl (fun q i => (g i).foldl (fun q j => write3 q (B i j) (V i j)) q) q
      = (pairList l g).foldl (fun q p => write3 q (B p.1 p.2) (V p.1 p.2)) q := by
  induction l with
  | nil => intro q; rfl
  | cons a t ih =>
    intro q
    simp only [List.foldl_cons, pairList_cons, List.foldl_append, List.foldl_map]
    exact ih _

/-- Read-back through a doubly nested loop of `write3` stores. -/
theorem foldl2_write3_read {ι κ : Type} (B : ι → κ → ℤ) (V : ι → κ → V3)
    (l : List ι) (g : ι → List κ) (x1 : ι) (x2 : κ) (hx1 : x1 ∈ l) (hx2 : x2 ∈ g x1)
    (hcond : ∀ y1 ∈ l, ∀ y2 ∈ g y1,
      |B y1 y2 - B x1 x2| < 3 → B y1 y2 = B x1 x2 ∧ V y1 y2 = V x1 x2) :
    ∀ q : ℤ → ℝ,
      l.foldl (fun q i => (g i).foldl (fun q j => write3 q (B i j) (V i j)) q) q
        (B x1 x2) = V x1 x2 0 ∧
      l.foldl (fun q i => (g i).foldl (fun q j => write3 q (B i j) (V i j)) q) q
        (B x1 x2 + 1) = V x1 x2 1 ∧
      l.foldl (fun q i => (g i).foldl (fun q j => write3 q (B i j) (V i j)) q) q
        (B x1 x2 + 2) = V x1 x2 2 := by
  intro q
  rw [foldl_foldl_write3]
  exact foldl_write3_read (fun p => B p.1 p.2) (fun p => V p.1 p.2) (pairList l g)
    (x1, x2) ((mem_pairList l g (x1, x2)).mpr ⟨hx1, hx2⟩)
    (by
      rintro ⟨y1, y2⟩ hy hnear
      obtain ⟨m1, m2⟩ := (mem_pairList l g (y1, y2)).mp hy
      exact hcond y1 m1 y2 m2 hnear)
    q

/-- Read-back through a triply nested loop of `write3` stores (the two inner
pixel lists do not depend on the outer position). -/
theorem foldl3_write3_read {ι κ μ : Type} (B : ι → κ → μ → ℤ) (V : ι → κ → μ → V3)
    (l : List ι) (g : List κ) (gg : List μ) (x1 : ι) (x2 : κ) (x3 : μ)
    (hx1 : x1 ∈ l) (hx2 : x2 ∈ g) (hx3 : x3 ∈ gg)
    (hcond : ∀ y1 ∈ l, ∀ y2 ∈ g, ∀ y3 ∈ gg,
      |B y1 y2 y3 - B x1 x2 x3| < 3 → B y1 y2 y3 = B x1 x2 x3 ∧ V y1 y2 y3 = V x1 x2 x3) :
    ∀ q : ℤ → ℝ,
      l.foldl (fun q i => g.foldl (fun q j1 => gg.foldl
          (fun q j2 => write3 q (B i j1 j2) (V i j1 j2)) q) q) q
        (B x1 x2 x3) = V x1 x2 x3 0 ∧
      l.foldl (fun q i => g.foldl (fun q j1 => gg.foldl
          (fun q j2 => write3 q (B i j1 j2) (V i j1 j2)) q) q) q
        (B x1 x2 x3 + 1) = V x1 x2 x3 1 ∧
      l.foldl (fun q i => g.foldl (fun q j1 => gg.foldl
          (fun q j2 => write3 q (B i j1 j2) (V i j1 j2)) q) q) q
        (B x1 x2 x3 + 2) = V x1 x2 x3 2 := by
  intro q
  have hbody : (fun q (i : ι) => g.foldl (fun q j1 => gg.foldl
        (fun q j2 => write3 q (B i j1 j2) (V i j1 j2)) q) q)
      = fun q i => (pairList g (fun _ => gg)).foldl
          (fun q p => write3 q (B i p.1 p.2) (V i p.1 p.2)) q :=
    funext fun q => funext fun i => foldl_foldl_write3 (B i) (V i) g (fun _ => gg) q
  rw [hbody]
  exact foldl2_write3_read (fun i p => B i p.1 p.2) (fun i p => V i p.1 p.2) l
    (fun _ => pairList g (fun _ => gg)) x1 (x2, x3) hx1
    ((mem_pairList g (fun _ => gg) (x2, x3)).mpr ⟨hx2, hx3⟩)
    (by
      rintro y1 hy1 ⟨y2, y3⟩ hy2
      obtain ⟨m2, m3⟩ := (mem_pairList g (fun _ => gg) (y2, y3)).mp hy2
      exact hcond y1 hy1 y2 m2 y3 m3)
    q

theorem foldl_id {ι : Type} (l : List ι) (q : ℤ → ℝ) :
    l.foldl (fun q _ => q) q = q := by
  induction l with
  | nil => rfl
  | cons a t ih => simp only [List.foldl_cons]; exact ih

/-- Division with remainder is unique: the slot arithmetic of the output
index maps. -/
theorem index_unique (N i i' t t' : ℤ) (h0 : 0 ≤ t) (h1 : t < N)
    (h0' : 0 ≤ t') (h1' : t' < N) (h : i * N + t = i' * N + t') :
    i = i' ∧ t = t' := by
  have hN : 0 < N := lt_of_le_of_lt h0 h1
  have key : i * N - i' * N = t' - t := by linarith
  rcases lt_trichotomy i i' with hlt | heq | hgt
  · exfalso
    have hm : i * N ≤ (i' - 1) * N := mul_le_mul_of_nonneg_right (by omega) (le_of_lt hN)
    have hr : (i' - 1) * N = i' * N - N := by ring
    linarith
  · subst heq
    exact ⟨rfl, by linarith⟩
  · exfalso
    have hm : i' * N ≤ (i - 1) * N := mul_le_mul_of_nonneg_right (by omega) (le_of_lt hN)
    have hr : (i - 1) * N = i * N - N := by ring
    linarith

theorem mem_intRange (lo hi j : ℤ) : j ∈ intRange lo hi ↔ lo ≤ j ∧ j < hi := by
  unfold intRange
  rw [List.mem_map]
  constructor
  · rintro ⟨t, ht, rfl⟩
    rw [List.mem_range] at ht
    omega
  · intro h
    refine ⟨(j - lo).toNat, ?_, ?_⟩
    · rw [List.mem_range]
      omega
    · omega

theorem intRange_empty (lo hi : ℤ) (h : hi ≤ lo) : intRange lo hi = [] := by
  have : (hi - lo).toNat = 0 := by omega
  simp [intRange, this]

/-- The circle loop computes the ascending-order product of the per-circle
rotation matrices. -/
theorem circles_mat_eq_prod (rots : List Rot) (ang : ℕ → ℝ) (n i : ℕ) :
    circles_mat rots ang n i
      = ((List.range n).map (fun j => (rots.getD j .xp).mat (ang (n * i + j)))).prod := by
  rw [List.prod_eq_foldl, List.foldl_map]
  rfl

/-! Resolver lemmas. -/

theorem parse_axis_ok (c1 c2 : Char) (h : validAxisPair c1 c2) :
    ∃ r, parse_axis c1 c2 = .ok r := by
  obtain ⟨h1, h2⟩ := h
  rcases h1 with h1 | h1 | h1 <;> rcases h2 with h2 | h2
  · exact ⟨Rot.xp, by simp [parse_axis, h1, h2]⟩
  · exact ⟨Rot.xm, by simp [parse_axis, h1, h2]⟩
  · exact ⟨Rot.yp, by simp [parse_axis, h1, h2]⟩
  · exact ⟨Rot.ym, by simp [parse_axis, h1, h2]⟩
  · exact ⟨Rot.zp, by simp [parse_axis, h1, h2]⟩
  · exact ⟨Rot.zm, by simp [parse_axis, h1, h2]⟩

theorem parse_axis_err (c1 c2 : Char) (h : ¬ validAxisPair c1 c2) :
    ∃ e, parse_axis c1 c2 = .error e ∧ e ≠ 0 := by
  unfold validAxisPair at h
  push_neg at h
  by_cases hx : c1.toLower = 'x'
  · have hs := h (Or.inl hx)
    push_neg at hs
    refine ⟨1, ?_, one_ne_zero⟩
    unfold parse_axis
    rw [hx, if_pos rfl, if_neg hs.1, if_neg hs.2]
  · by_cases hy : c1.toLower = 'y'
    · have hs := h (Or.inr (Or.inl hy))
      push_neg at hs
      refine ⟨1, ?_, one_ne_zero⟩
      unfold parse_axis
      rw [if_neg (hy ▸ hx), if_pos hy, if_neg hs.1, if_neg hs.2]
    · by_cases hz : c1.toLower = 'z'
      · have hs := h (Or.inr (Or.inr hz))
        push_neg at hs
        refine ⟨1, ?_, one_ne_zero⟩
        unfold parse_axis
        rw [if_neg hx, if_neg hy, if_pos hz, if_neg hs.1, if_neg hs.2]
      · refine ⟨2, ?_, two_ne_zero⟩
        unfold parse_axis
        rw [if_neg hx, if_neg hy, if_neg hz]

theorem resolve_axes_ok (s : List Char) (idx : List ℕ)
    (h : ∀ i ∈ idx, validAxisPair (s.getD (2 * i) ' ') (s.getD (2 * i + 1) ' ')) :
    ∃ l, resolve_axes s idx = .ok l ∧ l.length = idx.length := by
  induction idx with
  | nil => exact ⟨[], rfl, rfl⟩
  | cons a t ih =>
    obtain ⟨r, hr⟩ := parse_axis_ok _ _ (h a (List.mem_cons_self a t))
    obtain ⟨l, hl, hlen⟩ := ih (fun i hi => h i (List.mem_cons_of_mem a hi))
    refine ⟨r :: l, ?_, by simp [hlen]⟩
    simp only [resolve_axes]
    rw [hr, hl]

theorem resolve_axes_err (s : List Char) (idx : List ℕ)
    (h : ∃ i ∈ idx, ¬ validAxisPair (s.getD (2 * i) ' ') (s.getD (2 * i + 1) ' ')) :
    ∃ e, resolve_axes s idx = .error e ∧ e ≠ 0 := by
  induction idx with
  | nil =>
    obtain ⟨i, hi, _⟩ := h
    exact absurd hi (List.not_mem_nil i)
  | cons a t ih =>
    by_cases ha : validAxisPair (s.getD (2 * a) ' ') (s.getD (2 * a + 1) ' ')
    · obtain ⟨i, hi, hbad⟩ := h
      have hit : i ∈ t := by
        rcases List.mem_cons.mp hi with h1 | h1
        · exact absurd (h1 ▸ ha) hbad
        · exact h1
      obtain ⟨r, hr⟩ := parse_axis_ok _ _ ha
      obtain ⟨e, he, hne⟩ := ih ⟨i, hit, hbad⟩
      refine ⟨e, ?_, hne⟩
      simp only [resolve_axes]
      rw [hr, he]
    · obtain ⟨e, he, hne⟩ := parse_axis_err _ _ ha
      refine ⟨e, ?_, hne⟩
      simp only [resolve_axes]
      rw [he]

/-! C1: point-detector conversion formula. -/

theorem point_val_eq_spec (sRot dRot : List Rot) (sAng dAng : ℕ → ℝ) (Ns Nd : ℕ)
    (ri : V3) (lambda : ℝ) (i : ℕ) :
    point_val sRot dRot sAng dAng Ns Nd (vecmul (normalize ri) (M_2PI / lambda)) i
      = spec_pointQ sRot dRot sAng dAng Ns Nd ri lambda i := by
  unfold point_val spec_pointQ
  simp only [circles_mat_eq_prod]
  rfl

/-- On successful axis resolution the point entry point returns status 0 and
the cells `3i .. 3i+2` of the output buffer hold the per-position vector
`point_val`. -/
theorem ang2q_conversion_read (sAng dAng : ℕ → ℝ) (qpos : ℤ → ℝ) (ri : V3)
    (Ns Nd Npoints : ℕ) (sampleAxis detectorAxis : List Char) (lambda : ℝ)
    (sRot dRot : List Rot)
    (hs : determine_axes_directions sampleAxis Ns = .ok sRot)
    (hd : determine_axes_directions detectorAxis Nd = .ok dRot)
    (i : ℕ) (hi : i < Npoints) :
    (ang2q_conversion sAng dAng qpos ri Ns Nd Npoints sampleAxis detectorAxis lambda).1 = 0 ∧
    ((ang2q_conversion sAng dAng qpos ri Ns Nd Npoints sampleAxis detectorAxis lambda).2.1
        (3 * (i : ℤ))
        = point_val sRot dRot sAng dAng Ns Nd (vecmul (normalize ri) (M_2PI / lambda)) i 0 ∧
      (ang2q_conversion sAng dAng qpos ri Ns Nd Npoints sampleAxis detectorAxis lambda).2.1
        (3 * (i : ℤ) + 1)
        = point_val sRot dRot sAng dAng Ns Nd (vecmul (normalize ri) (M_2PI / lambda)) i 1 ∧
      (ang2q_conversion sAng dAng qpos ri Ns Nd Npoints sampleAxis detectorAxis lambda).2.1
        (3 * (i : ℤ) + 2)
        = point_val sRot dRot sAng dAng Ns Nd (vecmul (normalize ri) (M_2PI / lambda)) i 2) := by
  have hread := foldl_write3_read (fun n : ℕ => 3 * (n : ℤ))
    (fun n => point_val sRot dRot sAng dAng Ns Nd (vecmul (normalize ri) (M_2PI / lambda)) n)
    (List.range Npoints) i (List.mem_range.mpr hi)
    (by
      intro y hy hnear
      simp only at hnear
      have h3 := abs_lt.mp hnear
      have hyi : y = i := by omega
      subst hyi
      exact ⟨rfl, rfl⟩)
    qpos
  simp only [ang2q_conversion, hs, hd]
  exact ⟨trivial, hread⟩

/-- C1: for every position `i` with valid axis specs, the point-detector entry
point `ang2q_conversion` returns 0 and writes to `qpos[3i..3i+2]` the vector
`R_s⁻¹ (R_d − I) k_i`, where `R_s` and `R_d` are the products of the sample
and detector circle rotations in ascending circle order and `k_i` is the
beam direction `ri` renormalized to unit length and scaled by 2π/λ. -/
theorem claim_C1_point_formula (sAng dAng : ℕ → ℝ) (qpos : ℤ → ℝ) (ri : V3)
    (Ns Nd Npoints : ℕ) (sampleAxis detectorAxis : List Char) (lambda : ℝ)
    (sRot dRot : List Rot)
    (hs : determine_axes_directions sampleAxis Ns = .ok sRot)
    (hd : determine_axes_directions detectorAxis Nd = .ok dRot)
    (i : ℕ) (hi : i < Npoints) :
    (ang2q_conversion sAng dAng qpos ri Ns Nd Npoints sampleAxis detectorAxis lambda).1 = 0 ∧
    ((ang2q_conversion sAng dAng qpos ri Ns Nd Npoints sampleAxis detectorAxis lambda).2.1
        (3 * (i : ℤ)) = spec_pointQ sRot dRot sAng dAng Ns Nd ri lambda i 0 ∧
      (ang2q_conversion sAng dAng qpos ri Ns Nd Npoints sampleAxis detectorAxis lambda).2.1
        (3 * (i : ℤ) + 1) = spec_pointQ sRot dRot sAng dAng Ns Nd ri lambda i 1 ∧
      (ang2q_conversion sAng dAng qpos ri Ns Nd Npoints sampleAxis detectorAxis lambda).2.1
        (3 * (i : ℤ) + 2) = spec_pointQ sRot dRot sAng dAng Ns Nd ri lambda i 2) := by
  have h := ang2q_conversion_read sAng dAng qpos ri Ns Nd Npoints sampleAxis detectorAxis
    lambda sRot dRot hs hd i hi
  rw [point_val_eq_spec] at h
  exact h

/-- Witness for C1 at a concrete configuration (one x+ circle on each side). -/
theorem claim_C1_point_formula_witness :
    determine_axes_directions (['x', '+'] : List Char) 1 = .ok [Rot.xp] ∧
    (0 : ℕ) < 1 ∧
    ((ang2q_conversion (fun _ => 0) (fun _ => 0) (fun _ => 0) ![0, 0, 1] 1 1 1
        (['x', '+'] : List Char) (['x', '+'] : List Char) 1).1 = 0 ∧
      ((ang2q_conversion (fun _ => 0) (fun _ => 0) (fun _ => 0) ![0, 0, 1] 1 1 1
          (['x', '+'] : List Char) (['x', '+'] : List Char) 1).2.1 (3 * ((0 : ℕ) : ℤ))
          = spec_pointQ [Rot.xp] [Rot.xp] (fun _ => 0) (fun _ => 0) 1 1 ![0, 0, 1] 1 0 0 ∧
        (ang2q_conversion (fun _ => 0) (fun _ => 0) (fun _ => 0) ![0, 0, 1] 1 1 1
          (['x', '+'] : List Char) (['x', '+'] : List Char) 1).2.1 (3 * ((0 : ℕ) : ℤ) + 1)
          = spec_pointQ [Rot.xp] [Rot.xp] (fun _ => 0) (fun _ => 0) 1 1 ![0, 0, 1] 1 0 1 ∧
        (ang2q_conversion (fun _ => 0) (fun _ => 0) (fun _ => 0) ![0, 0, 1] 1 1 1
          (['x', '+'] : List Char) (['x', '+'] : List Char) 1).2.1 (3 * ((0 : ℕ) : ℤ) + 2)
          = spec_pointQ [Rot.xp] [Rot.xp] (fun _ => 0) (fun _ => 0) 1 1 ![0, 0, 1] 1 0 2)) :=
  ⟨rfl, by norm_num,
    claim_C1_point_formula (fun _ => 0) (fun _ => 0) (fun _ => 0) ![0, 0, 1] 1 1 1
      (['x', '+'] : List Char) (['x', '+'] : List Char) 1 [Rot.xp] [Rot.xp] rfl rfl 0
      (by norm_num)⟩

/-! C2: behaviour when the composed detector rotation is the identity. -/

theorem rot_mat_zero (r : Rot) : r.mat 0 = ident := by
  cases r <;> simp [Rot.mat, ident, Matrix.one_fin_three]

theorem circles_mat_single (r : Rot) (ang : ℕ → ℝ) (i : ℕ) :
    circles_mat [r] ang 1 i = r.mat (ang i) := by
  simp [circles_mat, List.range_succ, matmul, ident, one_mul]

theorem point_val_det_ident (sRot dRot : List Rot) (sAng dAng : ℕ → ℝ)
    (Ns Nd : ℕ) (ri2 : V3) (i : ℕ)
    (hdet : circles_mat dRot dAng Nd i = ident) :
    point_val sRot dRot sAng dAng Ns Nd ri2 i = 0 := by
  unfold point_val
  rw [hdet]
  simp [diffmat, ident, matmul, matvec, inversemat, sub_self, Matrix.zero_mulVec]

/-- C2 counterexample: in the claim's concrete scenario (one sample circle
"x+", one detector circle "x+", both angles 0, beam (0,0,1), 2π/λ = 5) the
point-detector call succeeds but stores Q = (0,0,0); the z-component is 0,
not 5 as the claim states. -/
theorem claim_C2_counterexample :
    (ang2q_conversion (fun _ => 0) (fun _ => 0) (fun _ => 0) ![0, 0, 1] 1 1 1
        (['x', '+'] : List Char) (['x', '+'] : List Char) (M_2PI / 5)).1 = 0 ∧
    (ang2q_conversion (fun _ => 0) (fun _ => 0) (fun _ => 0) ![0, 0, 1] 1 1 1
        (['x', '+'] : List Char) (['x', '+'] : List Char) (M_2PI / 5)).2.1 0 = 0 ∧
    (ang2q_conversion (fun _ => 0) (fun _ => 0) (fun _ => 0) ![0, 0, 1] 1 1 1
        (['x', '+'] : List Char) (['x', '+'] : List Char) (M_2PI / 5)).2.1 1 = 0 ∧
    (ang2q_conversion (fun _ => 0) (fun _ => 0) (fun _ => 0) ![0, 0, 1] 1 1 1
        (['x', '+'] : List Char) (['x', '+'] : List Char) (M_2PI / 5)).2.1 2 = 0 ∧
    ¬ (ang2q_conversion (fun _ => 0) (fun _ => 0) (fun _ => 0) ![0, 0, 1] 1 1 1
        (['x', '+'] : List Char) (['x', '+'] : List Char) (M_2PI / 5)).2.1 2 = 5 := by
  have hdet : circles_mat [Rot.xp] (fun _ => 0) 1 0 = ident := by
    rw [circles_mat_single]
    exact rot_mat_zero _
  have hq := ang2q_conversion_read (fun _ => 0) (fun _ => 0) (fun _ => 0) ![0, 0, 1] 1 1 1
    (['x', '+'] : List Char) (['x', '+'] : List Char) (M_2PI / 5) [Rot.xp] [Rot.xp]
    rfl rfl 0 (by norm_num)
  rw [point_val_det_ident [Rot.xp] [Rot.xp] (fun _ => 0) (fun _ => 0) 1 1 _ 0 hdet] at hq
  obtain ⟨h0, h1, h2, h3⟩ := hq
  norm_num at h1 h2 h3
  exact ⟨h0, h1, h2, h3, by rw [h3]; norm_num⟩

/-- C2 amended: for every batch in which the composed detector rotation
matrix is exactly the identity (in particular all detector angles 0), the
point-detector conversion stores the zero Q vector at every such position;
in the concrete scenario of the claim the output is (0,0,0), not (0,0,5). -/
theorem claim_C2_detector_identity (sAng dAng : ℕ → ℝ) (qpos : ℤ → ℝ) (ri : V3)
    (Ns Nd Npoints : ℕ) (sampleAxis detectorAxis : List Char) (lambda : ℝ)
    (sRot dRot : List Rot)
    (hs : determine_axes_directions sampleAxis Ns = .ok sRot)
    (hd : determine_axes_directions detectorAxis Nd = .ok dRot)
    (i : ℕ) (hi : i < Npoints)
    (hdet : circles_mat dRot dAng Nd i = ident) :
    (ang2q_conversion sAng dAng qpos ri Ns Nd Npoints sampleAxis detectorAxis lambda).1 = 0 ∧
    (ang2q_conversion sAng dAng qpos ri Ns Nd Npoints sampleAxis detectorAxis lambda).2.1
      (3 * (i : ℤ)) = 0 ∧
    (ang2q_conversion sAng dAng qpos ri Ns Nd Npoints sampleAxis detectorAxis lambda).2.1
      (3 * (i : ℤ) + 1) = 0 ∧
    (ang2q_conversion sAng dAng qpos ri Ns Nd Npoints sampleAxis detectorAxis lambda).2.1
      (3 * (i : ℤ) + 2) = 0 := by
  have hq := ang2q_conversion_read sAng dAng qpos ri Ns Nd Npoints sampleAxis detectorAxis
    lambda sRot dRot hs hd i hi
  rw [point_val_det_ident sRot dRot sAng dAng Ns Nd _ i hdet] at hq
  obtain ⟨h0, h1, h2, h3⟩ := hq
  simp only [Pi.zero_apply] at h1 h2 h3
  exact ⟨h0, h1, h2, h3⟩

/-- Witness for the amended C2 at the claim's concrete scenario. -/
theorem claim_C2_detector_identity_witness :
    determine_axes_directions (['x', '+'] : List Char) 1 = .ok [Rot.xp] ∧
    (0 : ℕ) < 1 ∧
    circles_mat [Rot.xp] (fun _ => 0) 1 0 = ident ∧
    ((ang2q_conversion (fun _ => 0) (fun _ => 0) (fun _ => 0) ![0, 0, 1] 1 1 1
        (['x', '+'] : List Char) (['x', '+'] : List Char) (M_2PI / 5)).1 = 0 ∧
      (ang2q_conversion (fun _ => 0) (fun _ => 0) (fun _ => 0) ![0, 0, 1] 1 1 1
        (['x', '+'] : List Char) (['x', '+'] : List Char) (M_2PI / 5)).2.1
        (3 * ((0 : ℕ) : ℤ)) = 0 ∧
      (ang2q_conversion (fun _ => 0) (fun _ => 0) (fun _ => 0) ![0, 0, 1] 1 1 1
        (['x', '+'] : List Char) (['x', '+'] : List Char) (M_2PI / 5)).2.1
        (3 * ((0 : ℕ) : ℤ) + 1) = 0 ∧
      (ang2q_conversion (fun _ => 0) (fun _ => 0) (fun _ => 0) ![0, 0, 1] 1 1 1
        (['x', '+'] : List Char) (['x', '+'] : List Char) (M_2PI / 5)).2.1
        (3 * ((0 : ℕ) : ℤ) + 2) = 0) :=
  ⟨rfl, by norm_num, by rw [circles_mat_single]; exact rot_mat_zero _,
    claim_C2_detector_identity (fun _ => 0) (fun _ => 0) (fun _ => 0) ![0, 0, 1] 1 1 1
      (['x', '+'] : List Char) (['x', '+'] : List Char) (M_2PI / 5) [Rot.xp] [Rot.xp]
      rfl rfl 0 (by norm_num)
      (by rw [circles_mat_single]; exact rot_mat_zero _)⟩

/-! C3: linear-detector conversion formula. -/

theorem triple_eq_of_near (a b : ℤ) (h : |3 * a - 3 * b| < 3) : a = b := by
  have h' := abs_lt.mp h
  omega

/-- On successful resolution the linear entry point returns status 0 and the
cells of slot `(i, p - roi0)` hold the per-pixel vector `linear_val`. -/
theorem ang2q_conversion_linear_read (sAng dAng : ℕ → ℝ) (qpos : ℤ → ℝ) (rcch : V3)
    (Ns Nd Npoints : ℕ) (sampleAxis detectorAxis : List Char) (cch dpixel : ℝ)
    (roi0 roi1 : ℤ) (dir0 dir1 : Char) (lambda : ℝ)
    (sRot dRot : List Rot) (rpixel : V3)
    (hs : determine_axes_directions sampleAxis Ns = .ok sRot)
    (hd : determine_axes_directions detectorAxis Nd = .ok dRot)
    (hp : determine_detector_pixel dir0 dir1 dpixel = .ok rpixel)
    (i : ℕ) (hi : i < Npoints) (p : ℤ) (hplo : roi0 ≤ p) (hphi : p < roi1) :
    (ang2q_conversion_linear sAng dAng qpos rcch Ns Nd Npoints sampleAxis detectorAxis
        cch dpixel roi0 roi1 dir0 dir1 lambda).1 = 0 ∧
    ((ang2q_conversion_linear sAng dAng qpos rcch Ns Nd Npoints sampleAxis detectorAxis
          cch dpixel roi0 roi1 dir0 dir1 lambda).2.1
        (3 * ((i : ℤ) * (roi1 - roi0) + p - roi0))
        = linear_val (inversemat (circles_mat sRot sAng Ns i)) (circles_mat dRot dAng Nd i)
            rpixel (fun k => rpixel k * cch) rcch (normalize rcch) (M_2PI / lambda) p 0 ∧
      (ang2q_conversion_linear sAng dAng qpos rcch Ns Nd Npoints sampleAxis detectorAxis
          cch dpixel roi0 roi1 dir0 dir1 lambda).2.1
        (3 * ((i : ℤ) * (roi1 - roi0) + p - roi0) + 1)
        = linear_val (inversemat (circles_mat sRot sAng Ns i)) (circles_mat dRot dAng Nd i)
            rpixel (fun k => rpixel k * cch) rcch (normalize rcch) (M_2PI / lambda) p 1 ∧
      (ang2q_conversion_linear sAng dAng qpos rcch Ns Nd Npoints sampleAxis detectorAxis
          cch dpixel roi0 roi1 dir0 dir1 lambda).2.1
        (3 * ((i : ℤ) * (roi1 - roi0) + p - roi0) + 2)
        = linear_val (inversemat (circles_mat sRot sAng Ns i)) (circles_mat dRot dAng Nd i)
            rpixel (fun k => rpixel k * cch) rcch (normalize rcch) (M_2PI / lambda) p 2) := by
  have hread := foldl2_write3_read
    (fun (n : ℕ) (j : ℤ) => 3 * ((n : ℤ) * (roi1 - roi0) + j - roi0))
    (fun n j => linear_val (inversemat (circles_mat sRot sAng Ns n))
      (circles_mat dRot dAng Nd n) rpixel (fun k => rpixel k * cch) rcch
      (normalize rcch) (M_2PI / lambda) j)
    (List.range Npoints) (fun _ => intRange roi0 roi1) i p
    (List.mem_range.mpr hi) ((mem_intRange roi0 roi1 p).mpr ⟨hplo, hphi⟩)
    (by
      intro y1 hy1 y2 hy2 hnear
      rw [mem_intRange] at hy2
      simp only at hnear
      have hUW := triple_eq_of_near _ _ hnear
      have hidx := index_unique (roi1 - roi0) (y1 : ℤ) (i : ℤ) (y2 - roi0) (p - roi0)
        (by omega) (by omega) (by omega) (by omega) (by linarith)
      have hy1i : y1 = i := by exact_mod_cast hidx.1
      have hy2p : y2 = p := by omega
      subst hy1i
      subst hy2p
      exact ⟨rfl, rfl⟩)
    qpos
  simp only [ang2q_conversion_linear, hs, hd, hp]
  exact ⟨trivial, hread⟩

theorem linear_val_eq_spec (sRot dRot : List Rot) (sAng dAng : ℕ → ℝ) (Ns Nd : ℕ)
    (rpixel rcch : V3) (cch lambda : ℝ) (i : ℕ) (p : ℤ) :
    linear_val (inversemat (circles_mat sRot sAng Ns i)) (circles_mat dRot dAng Nd i)
        rpixel (fun k => rpixel k * cch) rcch (normalize rcch) (M_2PI / lambda) p
      = spec_linearQ sRot dRot sAng dAng Ns Nd rpixel rcch cch lambda i p := by
  unfold linear_val spec_linearQ
  simp only [circles_mat_eq_prod]
  have harg : sumvec (fun k => (p : ℝ) * rpixel k - rpixel k * cch) rcch
      = fun k => (p : ℝ) * rpixel k - cch * rpixel k + rcch k := by
    funext k
    simp only [sumvec]
    ring
  rw [harg]
  rfl

/-- C3: for every position `i` and pixel `p` in the ROI, the linear-detector
entry point returns 0 and writes at slot `(i, p - roi0)` the vector
`R_s⁻¹ ((R_d d_p − r_i) · 2π/λ)` with `d_p = normalize(p·pixel − cch·pixel + rcch)`
and `r_i` the unit vector along `rcch`; the 2π/λ scaling happens after the
subtraction. -/
theorem claim_C3_linear_formula (sAng dAng : ℕ → ℝ) (qpos : ℤ → ℝ) (rcch : V3)
    (Ns Nd Npoints : ℕ) (sampleAxis detectorAxis : List Char) (cch dpixel : ℝ)
    (roi0 roi1 : ℤ) (dir0 dir1 : Char) (lambda : ℝ)
    (sRot dRot : List Rot) (rpixel : V3)
    (hs : determine_axes_directions sampleAxis Ns = .ok sRot)
    (hd : determine_axes_directions detectorAxis Nd = .ok dRot)
    (hp : determine_detector_pixel dir0 dir1 dpixel = .ok rpixel)
    (i : ℕ) (hi : i < Npoints) (p : ℤ) (hplo : roi0 ≤ p) (hphi : p < roi1) :
    (ang2q_conversion_linear sAng dAng qpos rcch Ns Nd Npoints sampleAxis detectorAxis
        cch dpixel roi0 roi1 dir0 dir1 lambda).1 = 0 ∧
    ((ang2q_conversion_linear sAng dAng qpos rcch Ns Nd Npoints sampleAxis detectorAxis
          cch dpixel roi0 roi1 dir0 dir1 lambda).2.1
        (3 * ((i : ℤ) * (roi1 - roi0) + p - roi0))
        = spec_linearQ sRot dRot sAng dAng Ns Nd rpixel rcch cch lambda i p 0 ∧
      (ang2q_conversion_linear sAng dAng qpos rcch Ns Nd Npoints sampleAxis detectorAxis
          cch dpixel roi0 roi1 dir0 dir1 lambda).2.1
        (3 * ((i : ℤ) * (roi1 - roi0) + p - roi0) + 1)
        = spec_linearQ sRot dRot sAng dAng Ns Nd rpixel rcch cch lambda i p 1 ∧
      (ang2q_conversion_linear sAng dAng qpos rcch Ns Nd Npoints sampleAxis detectorAxis
          cch dpixel roi0 roi1 dir0 dir1 lambda).2.1
        (3 * ((i : ℤ) * (roi1 - roi0) + p - roi0) + 2)
        = spec_linearQ sRot dRot sAng dAng Ns Nd rpixel rcch cch lambda i p 2) := by
  have h := ang2q_conversion_linear_read sAng dAng qpos rcch Ns Nd Npoints sampleAxis
    detectorAxis cch dpixel roi0 roi1 dir0 dir1 lambda sRot dRot rpixel hs hd hp
    i hi p hplo hphi
  rw [linear_val_eq_spec] at h
  exact h

/-- Witness for C3 at a concrete configuration. -/
theorem claim_C3_linear_formula_witness :
    determine_axes_directions (['x', '+'] : List Char) 1 = .ok [Rot.xp] ∧
    determine_detector_pixel 'x' '+' 1 = .ok ![1, 0, 0] ∧
    (0 : ℕ) < 1 ∧ (0 : ℤ) ≤ 0 ∧ (0 : ℤ) < 1 ∧
    ((ang2q_conversion_linear (fun _ => 0) (fun _ => 0) (fun _ => 0) ![0, 0, 1] 1 1 1
        (['x', '+'] : List Char) (['x', '+'] : List Char) 0 1 0 1 'x' '+' 1).1 = 0 ∧
      ((ang2q_conversion_linear (fun _ => 0) (fun _ => 0) (fun _ => 0) ![0, 0, 1] 1 1 1
          (['x', '+'] : List Char) (['x', '+'] : List Char) 0 1 0 1 'x' '+' 1).2.1
          (3 * (((0 : ℕ) : ℤ) * ((1 : ℤ) - 0) + 0 - 0))
          = spec_linearQ [Rot.xp] [Rot.xp] (fun _ => 0) (fun _ => 0) 1 1 ![1, 0, 0]
              ![0, 0, 1] 0 1 0 0 0 ∧
        (ang2q_conversion_linear (fun _ => 0) (fun _ => 0) (fun _ => 0) ![0, 0, 1] 1 1 1
          (['x', '+'] : List Char) (['x', '+'] : List Char) 0 1 0 1 'x' '+' 1).2.1
          (3 * (((0 : ℕ) : ℤ) * ((1 : ℤ) - 0) + 0 - 0) + 1)
          = spec_linearQ [Rot.xp] [Rot.xp] (fun _ => 0) (fun _ => 0) 1 1 ![1, 0, 0]
              ![0, 0, 1] 0 1 0 0 1 ∧
        (ang2q_conversion_linear (fun _ => 0) (fun _ => 0) (fun _ => 0) ![0, 0, 1] 1 1 1
          (['x', '+'] : List Char) (['x', '+'] : List Char) 0 1 0 1 'x' '+' 1).2.1
          (3 * (((0 : ℕ) : ℤ) * ((1 : ℤ) - 0) + 0 - 0) + 2)
          = spec_linearQ [Rot.xp] [Rot.xp] (fun _ => 0) (fun _ => 0) 1 1 ![1, 0, 0]
              ![0, 0, 1] 0 1 0 0 2)) :=
  ⟨rfl, rfl, by norm_num, by norm_num, by norm_num,
    claim_C3_linear_formula (fun _ => 0) (fun _ => 0) (fun _ => 0) ![0, 0, 1] 1 1 1
      (['x', '+'] : List Char) (['x', '+'] : List Char) 0 1 0 1 'x' '+' 1
      [Rot.xp] [Rot.xp] ![1, 0, 0] rfl rfl rfl 0 (by norm_num) 0 (by norm_num) (by norm_num)⟩

/-! C4: area-detector output indexing. -/

/-- The area output index map is injective on in-range (position, p1, p2)
triples. -/
theorem area_index_unique (roi0 roi1 roi2 roi3 i i' j1 p1 j2 p2 : ℤ)
    (hj1 : roi0 ≤ j1) (hj1' : j1 < roi1) (hp1 : roi0 ≤ p1) (hp1' : p1 < roi1)
    (hj2 : roi2 ≤ j2) (hj2' : j2 < roi3) (hp2 : roi2 ≤ p2) (hp2' : p2 < roi3)
    (h : i * ((roi1 - roi0) * (roi3 - roi2)) + (roi1 - roi0) * (j2 - roi2) + (j1 - roi0)
       = i' * ((roi1 - roi0) * (roi3 - roi2)) + (roi1 - roi0) * (p2 - roi2) + (p1 - roi0)) :
    i = i' ∧ j1 = p1 ∧ j2 = p2 := by
  have hN1 : 0 < roi1 - roi0 := by omega
  have hN2 : 0 < roi3 - roi2 := by omega
  have hb1 : (roi1 - roi0) * (j2 - roi2) ≤ (roi1 - roi0) * ((roi3 - roi2) - 1) :=
    mul_le_mul_of_nonneg_left (by omega) (le_of_lt hN1)
  have hb2 : (roi1 - roi0) * (p2 - roi2) ≤ (roi1 - roi0) * ((roi3 - roi2) - 1) :=
    mul_le_mul_of_nonneg_left (by omega) (le_of_lt hN1)
  have hr : (roi1 - roi0) * ((roi3 - roi2) - 1)
      = (roi1 - roi0) * (roi3 - roi2) - (roi1 - roi0) := by ring
  have hm1 : 0 ≤ (roi1 - roi0) * (j2 - roi2) := mul_nonneg (by omega) (by omega)
  have hm2 : 0 ≤ (roi1 - roi0) * (p2 - roi2) := mul_nonneg (by omega) (by omega)
  have step1 := index_unique ((roi1 - roi0) * (roi3 - roi2)) i i'
    ((roi1 - roi0) * (j2 - roi2) + (j1 - roi0)) ((roi1 - roi0) * (p2 - roi2) + (p1 - roi0))
    (by linarith) (by linarith) (by linarith) (by linarith) (by linarith)
  have step2 := index_unique (roi1 - roi0) (j2 - roi2) (p2 - roi2)
    (j1 - roi0) (p1 - roi0) (by omega) (by omega) (by omega) (by omega)
    (by linarith [step1.2])
  exact ⟨step1.1, by omega, by omega⟩

/-- On successful resolution the area entry point returns status 0 and the
cells of slot `i·N1·N2 + N1·(p2 − roi2) + (p1 − roi0)` hold the per-pixel
vector `area_val`. -/
theorem ang2q_conversion_area_read (sAng dAng : ℕ → ℝ) (qpos : ℤ → ℝ) (rcch : V3)
    (Ns Nd Npoints : ℕ) (sampleAxis detectorAxis : List Char)
    (cch1 cch2 dpixel1 dpixel2 : ℝ) (roi0 roi1 roi2 roi3 : ℤ)
    (dir10 dir11 dir20 dir21 : Char) (lambda : ℝ)
    (sRot dRot : List Rot) (rpixel1 rpixel2 : V3)
    (hs : determine_axes_directions sampleAxis Ns = .ok sRot)
    (hd : determine_axes_directions detectorAxis Nd = .ok dRot)
    (hpx1 : determine_detector_pixel dir10 dir11 dpixel1 = .ok rpixel1)
    (hpx2 : determine_detector_pixel dir20 dir21 dpixel2 = .ok rpixel2)
    (i : ℕ) (hi : i < Npoints) (p1 : ℤ) (hp1lo : roi0 ≤ p1) (hp1hi : p1 < roi1)
    (p2 : ℤ) (hp2lo : roi2 ≤ p2) (hp2hi : p2 < roi3) :
    (ang2q_conversion_area sAng dAng qpos rcch Ns Nd Npoints sampleAxis detectorAxis
        cch1 cch2 dpixel1 dpixel2 roi0 roi1 roi2 roi3 dir10 dir11 dir20 dir21 lambda).1
      = 0 ∧
    ((ang2q_conversion_area sAng dAng qpos rcch Ns Nd Npoints sampleAxis detectorAxis
          cch1 cch2 dpixel1 dpixel2 roi0 roi1 roi2 roi3 dir10 dir11 dir20 dir21 lambda).2.1
        (3 * ((i : ℤ) * ((roi1 - roi0) * (roi3 - roi2))
          + (roi1 - roi0) * (p2 - roi2) + (p1 - roi0)))
        = area_val (inversemat (circles_mat sRot sAng Ns i)) (circles_mat dRot dAng Nd i)
            rpixel1 rpixel2 (fun k => rpixel1 k * cch1 + rpixel2 k * cch2) rcch
            (normalize rcch) (M_2PI / lambda) p1 p2 0 ∧
      (ang2q_conversion_area sAng dAng qpos rcch Ns Nd Npoints sampleAxis detectorAxis
          cch1 cch2 dpixel1 dpixel2 roi0 roi1 roi2 roi3 dir10 dir11 dir20 dir21 lambda).2.1
        (3 * ((i : ℤ) * ((roi1 - roi0) * (roi3 - roi2))
          + (roi1 - roi0) * (p2 - roi2) + (p1 - roi0)) + 1)
        = area_val (inversemat (circles_mat sRot sAng Ns i)) (circles_mat dRot dAng Nd i)
            rpixel1 rpixel2 (fun k => rpixel1 k * cch1 + rpixel2 k * cch2) rcch
            (normalize rcch) (M_2PI / lambda) p1 p2 1 ∧
      (ang2q_conversion_area sAng dAng qpos rcch Ns Nd Npoints sampleAxis detectorAxis
          cch1 cch2 dpixel1 dpixel2 roi0 roi1 roi2 roi3 dir10 dir11 dir20 dir21 lambda).2.1
        (3 * ((i : ℤ) * ((roi1 - roi0) * (roi3 - roi2))
          + (roi1 - roi0) * (p2 - roi2) + (p1 - roi0)) + 2)
        = area_val (inversemat (circles_mat sRot sAng Ns i)) (circles_mat dRot dAng Nd i)
            rpixel1 rpixel2 (fun k => rpixel1 k * cch1 + rpixel2 k * cch2) rcch
            (normalize rcch) (M_2PI / lambda) p1 p2 2) := by
  have hread := foldl3_write3_read
    (fun (n : ℕ) (j1 j2 : ℤ) => 3 * ((n : ℤ) * ((roi1 - roi0) * (roi3 - roi2))
      + (roi1 - roi0) * (j2 - roi2) + (j1 - roi0)))
    (fun n j1 j2 => area_val (inversemat (circles_mat sRot sAng Ns n))
      (circles_mat dRot dAng Nd n) rpixel1 rpixel2
      (fun k => rpixel1 k * cch1 + rpixel2 k * cch2) rcch (normalize rcch)
      (M_2PI / lambda) j1 j2)
    (List.range Npoints) (intRange roi0 roi1) (intRange roi2 roi3) i p1 p2
    (List.mem_range.mpr hi) ((mem_intRange roi0 roi1 p1).mpr ⟨hp1lo, hp1hi⟩)
    ((mem_intRange roi2 roi3 p2).mpr ⟨hp2lo, hp2hi⟩)
    (by
      intro y1 hy1 y2 hy2 y3 hy3 hnear
      rw [mem_intRange] at hy2 hy3
      simp only at hnear
      have hUW := triple_eq_of_near _ _ hnear
      have hidx := area_index_unique roi0 roi1 roi2 roi3 (y1 : ℤ) (i : ℤ) y2 p1 y3 p2
        hy2.1 hy2.2 hp1lo hp1hi hy3.1 hy3.2 hp2lo hp2hi hUW
      have hy1i : y1 = i := by exact_mod_cast hidx.1
      have hy2p : y2 = p1 := hidx.2.1
      have hy3p : y3 = p2 := hidx.2.2
      subst hy1i
      subst hy2p
      subst hy3p
      exact ⟨rfl, rfl⟩)
    qpos
  simp only [ang2q_conversion_area, hs, hd, hpx1, hpx2]
  exact ⟨trivial, hread⟩

/-- C4: the area-detector entry point stores the Q vector of position `i`
and pixel pair `(p1, p2)` at the flat output slot
`i·N1·N2 + (p2 − roi2)·N1 + (p1 − roi0)` (three buffer cells from three times
that slot), and this index map is injective: no two distinct in-range
triples target the same output slot. -/
theorem claim_C4_area_indexing (sAng dAng : ℕ → ℝ) (qpos : ℤ → ℝ) (rcch : V3)
    (Ns Nd Npoints : ℕ) (sampleAxis detectorAxis : List Char)
    (cch1 cch2 dpixel1 dpixel2 : ℝ) (roi0 roi1 roi2 roi3 : ℤ)
    (dir10 dir11 dir20 dir21 : Char) (lambda : ℝ)
    (sRot dRot : List Rot) (rpixel1 rpixel2 : V3)
    (hs : determine_axes_directions sampleAxis Ns = .ok sRot)
    (hd : determine_axes_directions detectorAxis Nd = .ok dRot)
    (hpx1 : determine_detector_pixel dir10 dir11 dpixel1 = .ok rpixel1)
    (hpx2 : determine_detector_pixel dir20 dir21 dpixel2 = .ok rpixel2)
    (i : ℕ) (hi : i < Npoints) (p1 : ℤ) (hp1lo : roi0 ≤ p1) (hp1hi : p1 < roi1)
    (p2 : ℤ) (hp2lo : roi2 ≤ p2) (hp2hi : p2 < roi3) :
    ((ang2q_conversion_area sAng dAng qpos rcch Ns Nd Npoints sampleAxis detectorAxis
          cch1 cch2 dpixel1 dpixel2 roi0 roi1 roi2 roi3 dir10 dir11 dir20 dir21 lambda).2.1
        (3 * claim_area_index roi0 roi1 roi2 roi3 i p1 p2)
        = area_val (inversemat (circles_mat sRot sAng Ns i)) (circles_mat dRot dAng Nd i)
            rpixel1 rpixel2 (fun k => rpixel1 k * cch1 + rpixel2 k * cch2) rcch
            (normalize rcch) (M_2PI / lambda) p1 p2 0 ∧
      (ang2q_conversion_area sAng dAng qpos rcch Ns Nd Npoints sampleAxis detectorAxis
          cch1 cch2 dpixel1 dpixel2 roi0 roi1 roi2 roi3 dir10 dir11 dir20 dir21 lambda).2.1
        (3 * claim_area_index roi0 roi1 roi2 roi3 i p1 p2 + 1)
        = area_val (inversemat (circles_mat sRot sAng Ns i)) (circles_mat dRot dAng Nd i)
            rpixel1 rpixel2 (fun k => rpixel1 k * cch1 + rpixel2 k * cch2) rcch
            (normalize rcch) (M_2PI / lambda) p1 p2 1 ∧
      (ang2q_conversion_area sAng dAng qpos rcch Ns Nd Npoints sampleAxis detectorAxis
          cch1 cch2 dpixel1 dpixel2 roi0 roi1 roi2 roi3 dir10 dir11 dir20 dir21 lambda).2.1
        (3 * claim_area_index roi0 roi1 roi2 roi3 i p1 p2 + 2)
        = area_val (inversemat (circles_mat sRot sAng Ns i)) (circles_mat dRot dAng Nd i)
            rpixel1 rpixel2 (fun k => rpixel1 k * cch1 + rpixel2 k * cch2) rcch
            (normalize rcch) (M_2PI / lambda) p1 p2 2) ∧
    (∀ (i' : ℕ) (p1' p2' : ℤ), i' < Npoints →
      roi0 ≤ p1' → p1' < roi1 → roi2 ≤ p2' → p2' < roi3 →
      claim_area_index roi0 roi1 roi2 roi3 i' p1' p2'
        = claim_area_index roi0 roi1 roi2 roi3 i p1 p2 →
      i' = i ∧ p1' = p1 ∧ p2' = p2) := by
  have hread := ang2q_conversion_area_read sAng dAng qpos rcch Ns Nd Npoints sampleAxis
    detectorAxis cch1 cch2 dpixel1 dpixel2 roi0 roi1 roi2 roi3 dir10 dir11 dir20 dir21
    lambda sRot dRot rpixel1 rpixel2 hs hd hpx1 hpx2 i hi p1 hp1lo hp1hi p2 hp2lo hp2hi
  have hslot : 3 * claim_area_index roi0 roi1 roi2 roi3 i p1 p2
      = 3 * ((i : ℤ) * ((roi1 - roi0) * (roi3 - roi2))
        + (roi1 - roi0) * (p2 - roi2) + (p1 - roi0)) := by
    unfold claim_area_index
    ring
  constructor
  · rw [hslot]
    exact hread.2
  · intro i' p1' p2' _ h1 h2 h3 h4 heq
    unfold claim_area_index at heq
    have heq' : (i' : ℤ) * ((roi1 - roi0) * (roi3 - roi2))
        + (roi1 - roi0) * (p2' - roi2) + (p1' - roi0)
        = (i : ℤ) * ((roi1 - roi0) * (roi3 - roi2))
        + (roi1 - roi0) * (p2 - roi2) + (p1 - roi0) := by linarith
    have hidx := area_index_unique roi0 roi1 roi2 roi3 (i' : ℤ) (i : ℤ) p1' p1 p2' p2
      h1 h2 hp1lo hp1hi h3 h4 hp2lo hp2hi heq'
    exact ⟨by exact_mod_cast hidx.1, hidx.2.1, hidx.2.2⟩

/-- Witness for C4 at a concrete configuration (ROI [0,2,0,2]). -/
theorem claim_C4_area_indexing_witness :
    determine_axes_directions (['x', '+'] : List Char) 1 = .ok [Rot.xp] ∧
    determine_detector_pixel 'x' '+' 1 = .ok ![1, 0, 0] ∧
    determine_detector_pixel 'z' '+' 1 = .ok ![0, 0, 1] ∧
    (0 : ℕ) < 1 ∧ (0 : ℤ) ≤ 1 ∧ (1 : ℤ) < 2 ∧
    (((ang2q_conversion_area (fun _ => 0) (fun _ => 0) (fun _ => 0) ![0, 1, 0] 1 1 1
          (['x', '+'] : List Char) (['x', '+'] : List Char) 0 0 1 1 0 2 0 2
          'x' '+' 'z' '+' 1).2.1
        (3 * claim_area_index 0 2 0 2 0 1 1)
        = area_val (inversemat (circles_mat [Rot.xp] (fun _ => 0) 1 0))
            (circles_mat [Rot.xp] (fun _ => 0) 1 0) ![1, 0, 0] ![0, 0, 1]
            (fun k => (![1, 0, 0] : V3) k * 0 + (![0, 0, 1] : V3) k * 0) ![0, 1, 0]
            (normalize ![0, 1, 0]) (M_2PI / 1) 1 1 0 ∧
      (ang2q_conversion_area (fun _ => 0) (fun _ => 0) (fun _ => 0) ![0, 1, 0] 1 1 1
          (['x', '+'] : List Char) (['x', '+'] : List Char) 0 0 1 1 0 2 0 2
          'x' '+' 'z' '+' 1).2.1
        (3 * claim_area_index 0 2 0 2 0 1 1 + 1)
        = area_val (inversemat (circles_mat [Rot.xp] (fun _ => 0) 1 0))
            (circles_mat [Rot.xp] (fun _ => 0) 1 0) ![1, 0, 0] ![0, 0, 1]
            (fun k => (![1, 0, 0] : V3) k * 0 + (![0, 0, 1] : V3) k * 0) ![0, 1, 0]
            (normalize ![0, 1, 0]) (M_2PI / 1) 1 1 1 ∧
      (ang2q_conversion_area (fun _ => 0) (fun _ => 0) (fun _ => 0) ![0, 1, 0] 1 1 1
          (['x', '+'] : List Char) (['x', '+'] : List Char) 0 0 1 1 0 2 0 2
          'x' '+' 'z' '+' 1).2.1
        (3 * claim_area_index 0 2 0 2 0 1 1 + 2)
        = area_val (inversemat (circles_mat [Rot.xp] (fun _ => 0) 1 0))
            (circles_mat [Rot.xp] (fun _ => 0) 1 0) ![1, 0, 0] ![0, 0, 1]
            (fun k => (![1, 0, 0] : V3) k * 0 + (![0, 0, 1] : V3) k * 0) ![0, 1, 0]
            (normalize ![0, 1, 0]) (M_2PI / 1) 1 1 2) ∧
    (∀ (i' : ℕ) (p1' p2' : ℤ), i' < 1 →
      (0 : ℤ) ≤ p1' → p1' < 2 → (0 : ℤ) ≤ p2' → p2' < 2 →
      claim_area_index 0 2 0 2 i' p1' p2' = claim_area_index 0 2 0 2 0 1 1 →
      i' = 0 ∧ p1' = 1 ∧ p2' = 1)) :=
  ⟨rfl, rfl, rfl, by norm_num, by norm_num, by norm_num,
    claim_C4_area_indexing (fun _ => 0) (fun _ => 0) (fun _ => 0) ![0, 1, 0] 1 1 1
      (['x', '+'] : List Char) (['x', '+'] : List Char) 0 0 1 1 0 2 0 2
      'x' '+' 'z' '+' 1 [Rot.xp] [Rot.xp] ![1, 0, 0] ![0, 0, 1] rfl rfl rfl rfl
      0 (by norm_num) 1 (by norm_num) (by norm_num) 1 (by norm_num) (by norm_num)⟩

/-! C5: status codes of the three entry points. -/

/-- C5 counterexample: a sample-axis failure, a detector-axis failure and a
detector-direction failure all return the same status code 1 — the non-zero
codes of the three failure kinds are not distinct. -/
theorem claim_C5_counterexample :
    (ang2q_conversion (fun _ => 0) (fun _ => 0) (fun _ => 0) ![0, 0, 1] 1 1 1
        (['q', '+'] : List Char) (['x', '+'] : List Char) 1).1 = 1 ∧
    (ang2q_conversion (fun _ => 0) (fun _ => 0) (fun _ => 0) ![0, 0, 1] 1 1 1
        (['x', '+'] : List Char) (['q', '+'] : List Char) 1).1 = 1 ∧
    (ang2q_conversion_linear (fun _ => 0) (fun _ => 0) (fun _ => 0) ![0, 0, 1] 1 1 1
        (['x', '+'] : List Char) (['x', '+'] : List Char) 0 1 0 1 'q' '+' 1).1 = 1 := by
  refine ⟨rfl, rfl, rfl⟩

/-- C5 amended: each entry point returns 0 on success and status 1 for every
failure kind (sample axis, detector axis, detector direction); the non-zero
codes coincide instead of being distinct, so callers can only treat non-zero
as "batch not computed". -/
theorem claim_C5_status_codes (sAng dAng : ℕ → ℝ) (qpos : ℤ → ℝ) (ri rcch : V3)
    (Ns Nd Npoints : ℕ) (sampleAxis detectorAxis : List Char)
    (cch dpixel cch1 cch2 dpixel1 dpixel2 lambda : ℝ) (roi0 roi1 roi2 roi3 : ℤ)
    (dir0 dir1 dir10 dir11 dir20 dir21 : Char) :
    ((∃ e, determine_axes_directions sampleAxis Ns = .error e) →
      (ang2q_conversion sAng dAng qpos ri Ns Nd Npoints sampleAxis detectorAxis lambda).1
        = 1) ∧
    ((∃ e, determine_axes_directions detectorAxis Nd = .error e) →
      (ang2q_conversion sAng dAng qpos ri Ns Nd Npoints sampleAxis detectorAxis lambda).1
        = 1) ∧
    ((∃ ls, determine_axes_directions sampleAxis Ns = .ok ls) →
      (∃ ld, determine_axes_directions detectorAxis Nd = .ok ld) →
      (ang2q_conversion sAng dAng qpos ri Ns Nd Npoints sampleAxis detectorAxis lambda).1
        = 0) ∧
    ((∃ e, determine_axes_directions sampleAxis Ns = .error e) ∨
      (∃ e, determine_axes_directions detectorAxis Nd = .error e) ∨
      (∃ e, determine_detector_pixel dir0 dir1 dpixel = .error e) →
      (ang2q_conversion_linear sAng dAng qpos rcch Ns Nd Npoints sampleAxis detectorAxis
        cch dpixel roi0 roi1 dir0 dir1 lambda).1 = 1) ∧
    ((∃ ls, determine_axes_directions sampleAxis Ns = .ok ls) →
      (∃ ld, determine_axes_directions detectorAxis Nd = .ok ld) →
      (∃ v, determine_detector_pixel dir0 dir1 dpixel = .ok v) →
      (ang2q_conversion_linear sAng dAng qpos rcch Ns Nd Npoints sampleAxis detectorAxis
        cch dpixel roi0 roi1 dir0 dir1 lambda).1 = 0) ∧
    ((∃ e, determine_axes_directions sampleAxis Ns = .error e) ∨
      (∃ e, determine_axes_directions detectorAxis Nd = .error e) ∨
      (∃ e, determine_detector_pixel dir10 dir11 dpixel1 = .error e) ∨
      (∃ e, determine_detector_pixel dir20 dir21 dpixel2 = .error e) →
      (ang2q_conversion_area sAng dAng qpos rcch Ns Nd Npoints sampleAxis detectorAxis
        cch1 cch2 dpixel1 dpixel2 roi0 roi1 roi2 roi3 dir10 dir11 dir20 dir21 lambda).1
        = 1) ∧
    ((∃ ls, determine_axes_directions sampleAxis Ns = .ok ls) →
      (∃ ld, determine_axes_directions detectorAxis Nd = .ok ld) →
      (∃ v, determine_detector_pixel dir10 dir11 dpixel1 = .ok v) →
      (∃ v, determine_detector_pixel dir20 dir21 dpixel2 = .ok v) →
      (ang2q_conversion_area sAng dAng qpos rcch Ns Nd Npoints sampleAxis detectorAxis
        cch1 cch2 dpixel1 dpixel2 roi0 roi1 roi2 roi3 dir10 dir11 dir20 dir21 lambda).1
        = 0) := by
  refine ⟨?_, ?_, ?_, ?_, ?_, ?_, ?_⟩
  · rintro ⟨e, he⟩
    simp [ang2q_conversion, he]
  · rintro ⟨e, he⟩
    rcases hs : determine_axes_directions sampleAxis Ns with e' | l' <;>
      simp [ang2q_conversion, hs, he]
  · rintro ⟨ls, hls⟩ ⟨ld, hld⟩
    simp [ang2q_conversion, hls, hld]
  · rintro (⟨e, he⟩ | ⟨e, he⟩ | ⟨e, he⟩)
    · simp [ang2q_conversion_linear, he]
    · rcases hs : determine_axes_directions sampleAxis Ns with e' | l' <;>
        simp [ang2q_conversion_linear, hs, he]
    · rcases hs : determine_axes_directions sampleAxis Ns with e' | l' <;>
        rcases hd : determine_axes_directions detectorAxis Nd with e'' | l'' <;>
        simp [ang2q_conversion_linear, hs, hd, he]
  · rintro ⟨ls, hls⟩ ⟨ld, hld⟩ ⟨v, hv⟩
    simp [ang2q_conversion_linear, hls, hld, hv]
  · rintro (⟨e, he⟩ | ⟨e, he⟩ | ⟨e, he⟩ | ⟨e, he⟩)
    · simp [ang2q_conversion_area, he]
    · rcases hs : determine_axes_directions sampleAxis Ns with e' | l' <;>
        simp [ang2q_conversion_area, hs, he]
    · rcases hs : determine_axes_directions sampleAxis Ns with e' | l' <;>
        rcases hd : determine_axes_directions detectorAxis Nd with e'' | l'' <;>
        simp [ang2q_conversion_area, hs, hd, he]
    · rcases hs : determine_axes_directions sampleAxis Ns with e' | l' <;>
        rcases hd : determine_axes_directions detectorAxis Nd with e'' | l'' <;>
        rcases hp : determine_detector_pixel dir10 dir11 dpixel1 with e''' | v' <;>
        simp [ang2q_conversion_area, hs, hd, hp, he]
  · rintro ⟨ls, hls⟩ ⟨ld, hld⟩ ⟨v1, hv1⟩ ⟨v2, hv2⟩
    simp [ang2q_conversion_area, hls, hld, hv1, hv2]

/-- Witness for the amended C5: concrete failing and succeeding calls. -/
theorem claim_C5_status_codes_witness :
    (ang2q_conversion (fun _ => 0) (fun _ => 0) (fun _ => 0) ![0, 0, 1] 1 1 1
        (['q', '+'] : List Char) (['x', '+'] : List Char) 1).1 = 1 ∧
    (ang2q_conversion (fun _ => 0) (fun _ => 0) (fun _ => 0) ![0, 0, 1] 1 1 1
        (['x', '+'] : List Char) (['x', '+'] : List Char) 1).1 = 0 ∧
    (ang2q_conversion_linear (fun _ => 0) (fun _ => 0) (fun _ => 0) ![0, 0, 1] 1 1 1
        (['x', '+'] : List Char) (['x', '+'] : List Char) 0 1 0 1 'q' '+' 1).1 = 1 := by
  refine ⟨?_, ?_, ?_⟩
  · exact (claim_C5_status_codes (fun _ => 0) (fun _ => 0) (fun _ => 0) ![0, 0, 1]
      ![0, 0, 1] 1 1 1 (['q', '+'] : List Char) (['x', '+'] : List Char)
      0 1 0 0 1 1 1 0 1 0 1 'x' '+' 'x' '+' 'z' '+').1 ⟨2, rfl⟩
  · exact (claim_C5_status_codes (fun _ => 0) (fun _ => 0) (fun _ => 0) ![0, 0, 1]
      ![0, 0, 1] 1 1 1 (['x', '+'] : List Char) (['x', '+'] : List Char)
      0 1 0 0 1 1 1 0 1 0 1 'x' '+' 'x' '+' 'z' '+').2.2.1 ⟨[Rot.xp], rfl⟩ ⟨[Rot.xp], rfl⟩
  · exact (claim_C5_status_codes (fun _ => 0) (fun _ => 0) (fun _ => 0) ![0, 0, 1]
      ![0, 0, 1] 1 1 1 (['x', '+'] : List Char) (['x', '+'] : List Char)
      0 1 0 0 1 1 1 0 1 0 1 'q' '+' 'x' '+' 'z' '+').2.2.2.1 (Or.inr (Or.inr ⟨2, rfl⟩))

/-! C6: axis-string resolution. -/

/-- C6: a spec string of length 2n whose pairs are all well formed resolves
to exactly n rotation generators with status 0; a single malformed pair
anywhere makes `determine_axes_directions` return a non-zero code and makes
every entry-point call using that string (as sample or detector axis spec)
fail for the whole batch. -/
theorem claim_C6_axis_string (s : List Char) (n : ℕ) :
    (s.length = 2 * n →
      (∀ i, i < n → validAxisPair (s.getD (2 * i) ' ') (s.getD (2 * i + 1) ' ')) →
      ∃ l, determine_axes_directions s n = .ok l ∧ l.length = n) ∧
    ((∃ i, i < n ∧ ¬ validAxisPair (s.getD (2 * i) ' ') (s.getD (2 * i + 1) ' ')) →
      (∃ e, determine_axes_directions s n = .error e ∧ e ≠ 0) ∧
      (∀ (sAng dAng : ℕ → ℝ) (qpos : ℤ → ℝ) (ri : V3) (Nd' Npoints : ℕ)
          (detectorAxis : List Char) (lambda : ℝ),
        (ang2q_conversion sAng dAng qpos ri n Nd' Npoints s detectorAxis lambda).1 ≠ 0) ∧
      (∀ (sAng dAng : ℕ → ℝ) (qpos : ℤ → ℝ) (ri : V3) (Ns' Npoints : ℕ)
          (sampleAxis : List Char) (lambda : ℝ),
        (ang2q_conversion sAng dAng qpos ri Ns' n Npoints sampleAxis s lambda).1 ≠ 0) ∧
      (∀ (sAng dAng : ℕ → ℝ) (qpos : ℤ → ℝ) (rcch : V3) (Nd' Npoints : ℕ)
          (detectorAxis : List Char) (cch dpixel : ℝ) (roi0 roi1 : ℤ)
          (dir0 dir1 : Char) (lambda : ℝ),
        (ang2q_conversion_linear sAng dAng qpos rcch n Nd' Npoints s detectorAxis
          cch dpixel roi0 roi1 dir0 dir1 lambda).1 ≠ 0) ∧
      (∀ (sAng dAng : ℕ → ℝ) (qpos : ℤ → ℝ) (rcch : V3) (Ns' Npoints : ℕ)
          (sampleAxis : List Char) (cch dpixel : ℝ) (roi0 roi1 : ℤ)
          (dir0 dir1 : Char) (lambda : ℝ),
        (ang2q_conversion_linear sAng dAng qpos rcch Ns' n Npoints sampleAxis s
          cch dpixel roi0 roi1 dir0 dir1 lambda).1 ≠ 0) ∧
      (∀ (sAng dAng : ℕ → ℝ) (qpos : ℤ → ℝ) (rcch : V3) (Nd' Npoints : ℕ)
          (detectorAxis : List Char) (cch1 cch2 dpixel1 dpixel2 : ℝ)
          (roi0 roi1 roi2 roi3 : ℤ) (dir10 dir11 dir20 dir21 : Char) (lambda : ℝ),
        (ang2q_conversion_area sAng dAng qpos rcch n Nd' Npoints s detectorAxis
          cch1 cch2 dpixel1 dpixel2 roi0 roi1 roi2 roi3 dir10 dir11 dir20 dir21
          lambda).1 ≠ 0) ∧
      (∀ (sAng dAng : ℕ → ℝ) (qpos : ℤ → ℝ) (rcch : V3) (Ns' Npoints : ℕ)
          (sampleAxis : List Char) (cch1 cch2 dpixel1 dpixel2 : ℝ)
          (roi0 roi1 roi2 roi3 : ℤ) (dir10 dir11 dir20 dir21 : Char) (lambda : ℝ),
        (ang2q_conversion_area sAng dAng qpos rcch Ns' n Npoints sampleAxis s
          cch1 cch2 dpixel1 dpixel2 roi0 roi1 roi2 roi3 dir10 dir11 dir20 dir21
          lambda).1 ≠ 0)) := by
  constructor
  · intro _ hvalid
    obtain ⟨l, hl, hlen⟩ := resolve_axes_ok s (List.range n)
      (fun i hi => hvalid i (List.mem_range.mp hi))
    exact ⟨l, hl, by rw [hlen, List.length_range]⟩
  · rintro ⟨i, hin, hbad⟩
    obtain ⟨e, he, hne⟩ := resolve_axes_err s (List.range n)
      ⟨i, List.mem_range.mpr hin, hbad⟩
    have he' : determine_axes_directions s n = .error e := he
    refine ⟨⟨e, he, hne⟩, ?_, ?_, ?_, ?_, ?_, ?_⟩
    · intro sAng dAng qpos ri Nd' Npoints detectorAxis lambda
      simp [ang2q_conversion, he']
    · intro sAng dAng qpos ri Ns' Npoints sampleAxis lambda
      rcases hs : determine_axes_directions sampleAxis Ns' with e' | l' <;>
        simp [ang2q_conversion, hs, he']
    · intro sAng dAng qpos rcch Nd' Npoints detectorAxis cch dpixel roi0 roi1 dir0 dir1 lambda
      simp [ang2q_conversion_linear, he']
    · intro sAng dAng qpos rcch Ns' Npoints sampleAxis cch dpixel roi0 roi1 dir0 dir1 lambda
      rcases hs : determine_axes_directions sampleAxis Ns' with e' | l' <;>
        simp [ang2q_conversion_linear, hs, he']
    · intro sAng dAng qpos rcch Nd' Npoints detectorAxis cch1 cch2 dpixel1 dpixel2
        roi0 roi1 roi2 roi3 dir10 dir11 dir20 dir21 lambda
      simp [ang2q_conversion_area, he']
    · intro sAng dAng qpos rcch Ns' Npoints sampleAxis cch1 cch2 dpixel1 dpixel2
        roi0 roi1 roi2 roi3 dir10 dir11 dir20 dir21 lambda
      rcases hs : determine_axes_directions sampleAxis Ns' with e' | l' <;>
        simp [ang2q_conversion_area, hs, he']

/-- Witness for C6: a well-formed two-circle string resolves to two
generators; the malformed string "q+" makes the resolver and a concrete
entry-point call fail. -/
theorem claim_C6_axis_string_witness :
    (∃ l, determine_axes_directions (['x', '+', 'y', '-'] : List Char) 2 = .ok l ∧
      l.length = 2) ∧
    (∃ e, determine_axes_directions (['q', '+'] : List Char) 1 = .error e ∧ e ≠ 0) ∧
    (ang2q_conversion (fun _ => 0) (fun _ => 0) (fun _ => 0) ![0, 0, 1] 1 1 1
        (['q', '+'] : List Char) (['x', '+'] : List Char) 1).1 ≠ 0 :=
  ⟨(claim_C6_axis_string (['x', '+', 'y', '-'] : List Char) 2).1 (by decide) (by decide),
    ((claim_C6_axis_string (['q', '+'] : List Char) 1).2 ⟨0, by decide, by decide⟩).1,
    ((claim_C6_axis_string (['q', '+'] : List Char) 1).2 ⟨0, by decide, by decide⟩).2.1
      (fun _ => 0) (fun _ => 0) (fun _ => 0) ![0, 0, 1] 1 1 (['x', '+'] : List Char) 1⟩

/-! C7: detector pixel-direction resolution. -/

/-- C7: for a direction letter in x/y/z (case-insensitive) and sign '+'/'-',
`determine_detector_pixel` returns 0 and a vector whose only non-zero
component sits at the named axis, has absolute value the (positive) pixel
pitch, and has the sign named by the sign character; an invalid sign gives
error 1, an invalid letter error 2. -/
theorem claim_C7_detector_pixel (c1 c2 : Char) (dpixel : ℝ) (hdp : 0 < dpixel) :
    ((c1.toLower = 'x' ∨ c1.toLower = 'y' ∨ c1.toLower = 'z') →
      (c2 = '+' ∨ c2 = '-') →
      ∃ v, determine_detector_pixel c1 c2 dpixel = .ok v ∧
        (∀ k : Fin 3, v k ≠ 0 ↔ k = axisIndex c1) ∧
        |v (axisIndex c1)| = dpixel ∧
        (0 < v (axisIndex c1) ↔ c2 = '+')) ∧
    ((c1.toLower = 'x' ∨ c1.toLower = 'y' ∨ c1.toLower = 'z') →
      c2 ≠ '+' → c2 ≠ '-' →
      determine_detector_pixel c1 c2 dpixel = .error 1) ∧
    (¬(c1.toLower = 'x' ∨ c1.toLower = 'y' ∨ c1.toLower = 'z') →
      determine_detector_pixel c1 c2 dpixel = .error 2) := by
  have hne := hdp.ne'
  have hnlt : ¬ dpixel < 0 := not_lt.mpr hdp.le
  refine ⟨?_, ?_, ?_⟩
  · intro h1 h2
    rcases h1 with h1 | h1 | h1 <;> rcases h2 with h2 | h2
    · refine ⟨![dpixel, 0, 0], by simp [determine_detector_pixel, h1, h2], ?_, ?_, ?_⟩
      · intro k
        fin_cases k <;> simp [axisIndex, h1, hne]
      · simp [axisIndex, h1, abs_of_pos hdp]
      · simp [axisIndex, h1, h2, hdp]
    · refine ⟨![-dpixel, 0, 0], by simp [determine_detector_pixel, h1, h2], ?_, ?_, ?_⟩
      · intro k
        fin_cases k <;> simp [axisIndex, h1, hne]
      · simp [axisIndex, h1, abs_of_pos hdp]
      · simp [axisIndex, h1, h2, neg_pos, hnlt]
    · refine ⟨![0, dpixel, 0], by simp [determine_detector_pixel, h1, h2], ?_, ?_, ?_⟩
      · intro k
        fin_cases k <;> simp [axisIndex, h1, hne]
      · simp [axisIndex, h1, abs_of_pos hdp]
      · simp [axisIndex, h1, h2, hdp]
    · refine ⟨![0, -dpixel, 0], by simp [determine_detector_pixel, h1, h2], ?_, ?_, ?_⟩
      · intro k
        fin_cases k <;> simp [axisIndex, h1, hne]
      · simp [axisIndex, h1, abs_of_pos hdp]
      · simp [axisIndex, h1, h2, neg_pos, hnlt]
    · refine ⟨![0, 0, dpixel], by simp [determine_detector_pixel, h1, h2], ?_, ?_, ?_⟩
      · intro k
        fin_cases k <;> simp [axisIndex, h1, hne]
      · simp [axisIndex, h1, abs_of_pos hdp]
      · simp [axisIndex, h1, h2, hdp]
    · refine ⟨![0, 0, -dpixel], by simp [determine_detector_pixel, h1, h2], ?_, ?_, ?_⟩
      · intro k
        fin_cases k <;> simp [axisIndex, h1, hne]
      · simp [axisIndex, h1, abs_of_pos hdp]
      · simp [axisIndex, h1, h2, neg_pos, hnlt]
  · intro h1 hna hnb
    rcases h1 with h1 | h1 | h1 <;> simp [determine_detector_pixel, h1, hna, hnb]
  · intro h
    push_neg at h
    simp [determine_detector_pixel, h.1, h.2.1, h.2.2]

/-- Witness for C7 at the direction "x+" with pitch 1. -/
theorem claim_C7_detector_pixel_witness :
    (0 : ℝ) < 1 ∧
    ((('x' : Char).toLower = 'x' ∨ ('x' : Char).toLower = 'y' ∨ ('x' : Char).toLower = 'z') →
      (('+' : Char) = '+' ∨ ('+' : Char) = '-') →
      ∃ v, determine_detector_pixel 'x' '+' 1 = .ok v ∧
        (∀ k : Fin 3, v k ≠ 0 ↔ k = axisIndex 'x') ∧
        |v (axisIndex 'x')| = 1 ∧
        (0 < v (axisIndex 'x') ↔ ('+' : Char) = '+')) ∧
    ((('x' : Char).toLower = 'x' ∨ ('x' : Char).toLower = 'y' ∨ ('x' : Char).toLower = 'z') →
      ('+' : Char) ≠ '+' → ('+' : Char) ≠ '-' →
      determine_detector_pixel 'x' '+' 1 = .error 1) ∧
    (¬(('x' : Char).toLower = 'x' ∨ ('x' : Char).toLower = 'y' ∨ ('x' : Char).toLower = 'z') →
      determine_detector_pixel 'x' '+' 1 = .error 2) :=
  ⟨by norm_num, claim_C7_detector_pixel 'x' '+' 1 (by norm_num)⟩

/-! C8: failures happen before any output is written. -/

/-- C8: whenever axis or detector-direction resolution fails, each entry
point returns a non-zero status and the output buffer `qpos` is exactly the
caller's buffer, untouched. -/
theorem claim_C8_no_partial_output (sAng dAng : ℕ → ℝ) (qpos : ℤ → ℝ) (ri rcch : V3)
    (Ns Nd Npoints : ℕ) (sampleAxis detectorAxis : List Char)
    (cch dpixel cch1 cch2 dpixel1 dpixel2 lambda : ℝ) (roi0 roi1 roi2 roi3 : ℤ)
    (dir0 dir1 dir10 dir11 dir20 dir21 : Char) :
    ((∃ e, determine_axes_directions sampleAxis Ns = .error e) ∨
      (∃ e, determine_axes_directions detectorAxis Nd = .error e) →
      (ang2q_conversion sAng dAng qpos ri Ns Nd Npoints sampleAxis detectorAxis lambda).1
        ≠ 0 ∧
      (ang2q_conversion sAng dAng qpos ri Ns Nd Npoints sampleAxis detectorAxis lambda).2.1
        = qpos) ∧
    ((∃ e, determine_axes_directions sampleAxis Ns = .error e) ∨
      (∃ e, determine_axes_directions detectorAxis Nd = .error e) ∨
      (∃ e, determine_detector_pixel dir0 dir1 dpixel = .error e) →
      (ang2q_conversion_linear sAng dAng qpos rcch Ns Nd Npoints sampleAxis detectorAxis
        cch dpixel roi0 roi1 dir0 dir1 lambda).1 ≠ 0 ∧
      (ang2q_conversion_linear sAng dAng qpos rcch Ns Nd Npoints sampleAxis detectorAxis
        cch dpixel roi0 roi1 dir0 dir1 lambda).2.1 = qpos) ∧
    ((∃ e, determine_axes_directions sampleAxis Ns = .error e) ∨
      (∃ e, determine_axes_directions detectorAxis Nd = .error e) ∨
      (∃ e, determine_detector_pixel dir10 dir11 dpixel1 = .error e) ∨
      (∃ e, determine_detector_pixel dir20 dir21 dpixel2 = .error e) →
      (ang2q_conversion_area sAng dAng qpos rcch Ns Nd Npoints sampleAxis detectorAxis
        cch1 cch2 dpixel1 dpixel2 roi0 roi1 roi2 roi3 dir10 dir11 dir20 dir21 lambda).1
        ≠ 0 ∧
      (ang2q_conversion_area sAng dAng qpos rcch Ns Nd Npoints sampleAxis detectorAxis
        cch1 cch2 dpixel1 dpixel2 roi0 roi1 roi2 roi3 dir10 dir11 dir20 dir21 lambda).2.1
        = qpos) := by
  refine ⟨?_, ?_, ?_⟩
  · rintro (⟨e, he⟩ | ⟨e, he⟩)
    · constructor <;> simp [ang2q_conversion, he]
    · rcases hs : determine_axes_directions sampleAxis Ns with e' | l' <;>
        constructor <;> simp [ang2q_conversion, hs, he]
  · rintro (⟨e, he⟩ | ⟨e, he⟩ | ⟨e, he⟩)
    · constructor <;> simp [ang2q_conversion_linear, he]
    · rcases hs : determine_axes_directions sampleAxis Ns with e' | l' <;>
        constructor <;> simp [ang2q_conversion_linear, hs, he]
    · rcases hs : determine_axes_directions sampleAxis Ns with e' | l' <;>
        rcases hd : determine_axes_directions detectorAxis Nd with e'' | l'' <;>
        constructor <;> simp [ang2q_conversion_linear, hs, hd, he]
  · rintro (⟨e, he⟩ | ⟨e, he⟩ | ⟨e, he⟩ | ⟨e, he⟩)
    · constructor <;> simp [ang2q_conversion_area, he]
    · rcases hs : determine_axes_directions sampleAxis Ns with e' | l' <;>
        constructor <;> simp [ang2q_conversion_area, hs, he]
    · rcases hs : determine_axes_directions sampleAxis Ns with e' | l' <;>
        rcases hd : determine_axes_directions detectorAxis Nd with e'' | l'' <;>
        constructor <;> simp [ang2q_conversion_area, hs, hd, he]
    · rcases hs : determine_axes_directions sampleAxis Ns with e' | l' <;>
        rcases hd : determine_axes_directions detectorAxis Nd with e'' | l'' <;>
        rcases hp : determine_detector_pixel dir10 dir11 dpixel1 with e''' | v' <;>
        constructor <;> simp [ang2q_conversion_area, hs, hd, hp, he]

/-- Witness for C8: a concrete sample-axis failure leaves the buffer alone. -/
theorem claim_C8_no_partial_output_witness :
    (ang2q_conversion (fun _ => 0) (fun _ => 0) (fun _ => 0) ![0, 0, 1] 1 1 1
        (['q', '+'] : List Char) (['x', '+'] : List Char) 1).1 ≠ 0 ∧
    (ang2q_conversion (fun _ => 0) (fun _ => 0) (fun _ => 0) ![0, 0, 1] 1 1 1
        (['q', '+'] : List Char) (['x', '+'] : List Char) 1).2.1 = (fun _ => 0) :=
  (claim_C8_no_partial_output (fun _ => 0) (fun _ => 0) (fun _ => 0) ![0, 0, 1] ![0, 0, 1]
      1 1 1 (['q', '+'] : List Char) (['x', '+'] : List Char)
      0 1 0 0 1 1 1 0 1 0 1 'x' '+' 'x' '+' 'z' '+').1 (Or.inl ⟨2, rfl⟩)

/-! C9: an empty region of interest is not an error. -/

/-- C9: with successful axis and direction resolution, a linear-detector call
with `roi1 ≤ roi0`, and an area-detector call with an empty range on either
axis, return status 0 and write nothing: the output buffer is unchanged. -/
theorem claim_C9_empty_roi (sAng dAng : ℕ → ℝ) (qpos : ℤ → ℝ) (rcch : V3)
    (Ns Nd Npoints : ℕ) (sampleAxis detectorAxis : List Char)
    (cch dpixel cch1 cch2 dpixel1 dpixel2 lambda : ℝ) (roi0 roi1 roi2 roi3 : ℤ)
    (dir0 dir1 dir10 dir11 dir20 dir21 : Char)
    (sRot dRot : List Rot) (rpixel rpixel1 rpixel2 : V3)
    (hs : determine_axes_directions sampleAxis Ns = .ok sRot)
    (hd : determine_axes_directions detectorAxis Nd = .ok dRot)
    (hp : determine_detector_pixel dir0 dir1 dpixel = .ok rpixel)
    (hpx1 : determine_detector_pixel dir10 dir11 dpixel1 = .ok rpixel1)
    (hpx2 : determine_detector_pixel dir20 dir21 dpixel2 = .ok rpixel2) :
    (roi1 ≤ roi0 →
      (ang2q_conversion_linear sAng dAng qpos rcch Ns Nd Npoints sampleAxis detectorAxis
        cch dpixel roi0 roi1 dir0 dir1 lambda).1 = 0 ∧
      (ang2q_conversion_linear sAng dAng qpos rcch Ns Nd Npoints sampleAxis detectorAxis
        cch dpixel roi0 roi1 dir0 dir1 lambda).2.1 = qpos) ∧
    (roi1 ≤ roi0 ∨ roi3 ≤ roi2 →
      (ang2q_conversion_area sAng dAng qpos rcch Ns Nd Npoints sampleAxis detectorAxis
        cch1 cch2 dpixel1 dpixel2 roi0 roi1 roi2 roi3 dir10 dir11 dir20 dir21 lambda).1
        = 0 ∧
      (ang2q_conversion_area sAng dAng qpos rcch Ns Nd Npoints sampleAxis detectorAxis
        cch1 cch2 dpixel1 dpixel2 roi0 roi1 roi2 roi3 dir10 dir11 dir20 dir21 lambda).2.1
        = qpos) := by
  constructor
  · intro hroi
    constructor
    · simp [ang2q_conversion_linear, hs, hd, hp]
    · simp only [ang2q_conversion_linear, hs, hd, hp]
      rw [intRange_empty roi0 roi1 hroi]
      simp [foldl_id]
  · rintro (hroi | hroi)
    · constructor
      · simp [ang2q_conversion_area, hs, hd, hpx1, hpx2]
      · simp only [ang2q_conversion_area, hs, hd, hpx1, hpx2]
        rw [intRange_empty roi0 roi1 hroi]
        simp [foldl_id]
    · constructor
      · simp [ang2q_conversion_area, hs, hd, hpx1, hpx2]
      · simp only [ang2q_conversion_area, hs, hd, hpx1, hpx2]
        rw [intRange_empty roi2 roi3 hroi]
        simp [foldl_id]

/-- Witness for C9 at a concrete empty ROI. -/
theorem claim_C9_empty_roi_witness :
    ((1 : ℤ) ≤ 1 →
      (ang2q_conversion_linear (fun _ => 0) (fun _ => 0) (fun _ => 0) ![0, 0, 1] 1 1 1
        (['x', '+'] : List Char) (['x', '+'] : List Char) 0 1 1 1 'x' '+' 1).1 = 0 ∧
      (ang2q_conversion_linear (fun _ => 0) (fun _ => 0) (fun _ => 0) ![0, 0, 1] 1 1 1
        (['x', '+'] : List Char) (['x', '+'] : List Char) 0 1 1 1 'x' '+' 1).2.1
        = (fun _ => 0)) ∧
    ((1 : ℤ) ≤ 1 ∨ (2 : ℤ) ≤ 0 →
      (ang2q_conversion_area (fun _ => 0) (fun _ => 0) (fun _ => 0) ![0, 0, 1] 1 1 1
        (['x', '+'] : List Char) (['x', '+'] : List Char) 0 0 1 1 1 1 0 2
        'x' '+' 'z' '+' 1).1 = 0 ∧
      (ang2q_conversion_area (fun _ => 0) (fun _ => 0) (fun _ => 0) ![0, 0, 1] 1 1 1
        (['x', '+'] : List Char) (['x', '+'] : List Char) 0 0 1 1 1 1 0 2
        'x' '+' 'z' '+' 1).2.1 = (fun _ => 0)) :=
  claim_C9_empty_roi (fun _ => 0) (fun _ => 0) (fun _ => 0) ![0, 0, 1] 1 1 1
    (['x', '+'] : List Char) (['x', '+'] : List Char) 0 1 0 0 1 1 1 1 1 0 2
    'x' '+' 'x' '+' 'z' '+' [Rot.xp] [Rot.xp] ![1, 0, 0] ![1, 0, 0] ![0, 0, 1]
    rfl rfl rfl rfl rfl

/-! C10: buffer mutation of the entry points. -/

/-- C10: a successful point-detector call mutates the caller's beam buffer in
place — afterwards `ri` holds the original direction normalized to unit
length and scaled by 2π/λ — whereas the linear and area entry points always
hand back their `rcch` buffer unmodified (they work on a copy). -/
theorem claim_C10_frame_effects (sAng dAng : ℕ → ℝ) (qpos : ℤ → ℝ) (ri : V3)
    (Ns Nd Npoints : ℕ) (sampleAxis detectorAxis : List Char) (lambda : ℝ)
    (sRot dRot : List Rot)
    (hs : determine_axes_directions sampleAxis Ns = .ok sRot)
    (hd : determine_axes_directions detectorAxis Nd = .ok dRot) :
    ((ang2q_conversion sAng dAng qpos ri Ns Nd Npoints sampleAxis detectorAxis lambda).1
        = 0 ∧
      (ang2q_conversion sAng dAng qpos ri Ns Nd Npoints sampleAxis detectorAxis lambda).2.2
        = vecmul (normalize ri) (M_2PI / lambda)) ∧
    (∀ (sAng' dAng' : ℕ → ℝ) (qpos' : ℤ → ℝ) (rcch : V3) (Ns' Nd' Npoints' : ℕ)
        (sampleAxis' detectorAxis' : List Char) (cch dpixel : ℝ) (roi0 roi1 : ℤ)
        (dir0 dir1 : Char) (lambda' : ℝ),
      (ang2q_conversion_linear sAng' dAng' qpos' rcch Ns' Nd' Npoints' sampleAxis'
        detectorAxis' cch dpixel roi0 roi1 dir0 dir1 lambda').2.2 = rcch) ∧
    (∀ (sAng' dAng' : ℕ → ℝ) (qpos' : ℤ → ℝ) (rcch : V3) (Ns' Nd' Npoints' : ℕ)
        (sampleAxis' detectorAxis' : List Char) (cch1 cch2 dpixel1 dpixel2 : ℝ)
        (roi0 roi1 roi2 roi3 : ℤ) (dir10 dir11 dir20 dir21 : Char) (lambda' : ℝ),
      (ang2q_conversion_area sAng' dAng' qpos' rcch Ns' Nd' Npoints' sampleAxis'
        detectorAxis' cch1 cch2 dpixel1 dpixel2 roi0 roi1 roi2 roi3
        dir10 dir11 dir20 dir21 lambda').2.2 = rcch) := by
  refine ⟨?_, ?_, ?_⟩
  · constructor <;> simp [ang2q_conversion, hs, hd]
  · intro sAng' dAng' qpos' rcch Ns' Nd' Npoints' sampleAxis' detectorAxis' cch dpixel
      roi0 roi1 dir0 dir1 lambda'
    simp only [ang2q_conversion_linear]
    split
    · rfl
    · split
      · rfl
      · split
        · rfl
        · rfl
  · intro sAng' dAng' qpos' rcch Ns' Nd' Npoints' sampleAxis' detectorAxis'
      cch1 cch2 dpixel1 dpixel2 roi0 roi1 roi2 roi3 dir10 dir11 dir20 dir21 lambda'
    simp only [ang2q_conversion_area]
    split
    · rfl
    · split
      · rfl
      · split
        · rfl
        · split
          · rfl
          · rfl

/-- Witness for C10 at a concrete successful configuration. -/
theorem claim_C10_frame_effects_witness :
    ((ang2q_conversion (fun _ => 0) (fun _ => 0) (fun _ => 0) ![0, 0, 1] 1 1 1
        (['x', '+'] : List Char) (['x', '+'] : List Char) 1).1 = 0 ∧
      (ang2q_conversion (fun _ => 0) (fun _ => 0) (fun _ => 0) ![0, 0, 1] 1 1 1
        (['x', '+'] : List Char) (['x', '+'] : List Char) 1).2.2
        = vecmul (normalize ![0, 0, 1]) (M_2PI / 1)) ∧
    (∀ (sAng' dAng' : ℕ → ℝ) (qpos' : ℤ → ℝ) (rcch : V3) (Ns' Nd' Npoints' : ℕ)
        (sampleAxis' detectorAxis' : List Char) (cch dpixel : ℝ) (roi0 roi1 : ℤ)
        (dir0 dir1 : Char) (lambda' : ℝ),
      (ang2q_conversion_linear sAng' dAng' qpos' rcch Ns' Nd' Npoints' sampleAxis'
        detectorAxis' cch dpixel roi0 roi1 dir0 dir1 lambda').2.2 = rcch) ∧
    (∀ (sAng' dAng' : ℕ → ℝ) (qpos' : ℤ → ℝ) (rcch : V3) (Ns' Nd' Npoints' : ℕ)
        (sampleAxis' detectorAxis' : List Char) (cch1 cch2 dpixel1 dpixel2 : ℝ)
        (roi0 roi1 roi2 roi3 : ℤ) (dir10 dir11 dir20 dir21 : Char) (lambda' : ℝ),
      (ang2q_conversion_area sAng' dAng' qpos' rcch Ns' Nd' Npoints' sampleAxis'
        detectorAxis' cch1 cch2 dpixel1 dpixel2 roi0 roi1 roi2 roi3
        dir10 dir11 dir20 dir21 lambda').2.2 = rcch) :=
  claim_C10_frame_effects (fun _ => 0) (fun _ => 0) (fun _ => 0) ![0, 0, 1] 1 1 1
    (['x', '+'] : List Char) (['x', '+'] : List Char) 1 [Rot.xp] [Rot.xp] rfl rfl

end Qconv
